import Mathlib

/-!
# Verification of the EasyTrack scalability-test backend

Shallow embedding of the storage / registry / statistics logic of the
`et-scalability-test` repository (gRPC server, REST API server and
dashboard database managers) together with proofs of the behavioural
properties stated in its specification.

Bytes are modelled as lists of naturals, Cassandra tables as Lean lists,
and each Python function is translated into a pure Lean function over an
explicit database state.
-/

/-! ## Data model

Rows of the Cassandra tables used by the claims, translated from the
schema implied by `tools/db_mgr.py`.
-/

/-- A byte string (`bytes` in Python): list of byte values. -/
abbrev Bytes := List Nat

/-- Row of `"et"."user"`. -/
structure EtUser where
  id : Nat
  email : String
  sessionKey : String
  name : String
  deriving DecidableEq, Repr

/-- Row of `"et"."campaign"`. -/
structure EtCampaign where
  id : Nat
  creatorId : Nat
  name : String
  notes : String
  configJson : String
  startTimestamp : Nat
  endTimestamp : Nat
  deriving DecidableEq, Repr

/-- Row of `"et"."dataSource"`. -/
structure EtDataSource where
  id : Nat
  creatorId : Nat
  name : String
  iconName : String
  deriving DecidableEq, Repr

/-- Row of a per-owner shard table `"data"."cmp<C>_usr<P>"`
(primary key `("dataSourceId", "timestamp")`). -/
structure DataRecord where
  dataSourceId : Nat
  timestamp : Nat
  value : Bytes
  deriving DecidableEq, Repr

/-- Row of `"stats"."campaignParticipantStats"`: the participant↔campaign
binding. -/
structure BindingRow where
  userId : Nat
  campaignId : Nat
  joinTimestamp : Nat
  deriving DecidableEq, Repr

/-- Row of `"stats"."perDataSourceStats"`. -/
structure StatRow where
  campaignId : Nat
  userId : Nat
  dataSourceId : Nat
  amountOfSamples : Nat
  syncTimestamp : Nat
  deriving DecidableEq, Repr

/-- One shard table: its owning `(campaignId, userId)` pair and its rows.
Presence of an entry models existence of the table
`"data"."cmp<campaignId>_usr<userId>"`. -/
structure Shard where
  campaignId : Nat
  userId : Nat
  records : List DataRecord
  deriving DecidableEq, Repr

/-- The whole database state visible to the servers. -/
structure DB where
  users : List EtUser
  campaigns : List EtCampaign
  dataSources : List EtDataSource
  bindings : List BindingRow
  shards : List Shard
  stats : List StatRow
  deriving DecidableEq, Repr

/-! ## `tools/db_mgr.py`: lookups -/

/-- `get_user(user_id=...)`: first row of `"et"."user"` with this id. -/
def get_user (db : DB) (userId : Nat) : Option EtUser :=
  db.users.find? (fun u => u.id = userId)

/-- `get_user(email=...)`: first row of `"et"."user"` with this email. -/
def get_user_by_email (db : DB) (email : String) : Option EtUser :=
  db.users.find? (fun u => u.email = email)

/-- `get_campaign(campaign_id=...)` (no researcher check). -/
def get_campaign (db : DB) (campaignId : Nat) : Option EtCampaign :=
  db.campaigns.find? (fun c => c.id = campaignId)

/-- `get_data_source(data_source_id=...)`. -/
def get_data_source (db : DB) (dataSourceId : Nat) : Option EtDataSource :=
  db.dataSources.find? (fun d => d.id = dataSourceId)

/-- `user_is_bound_to_campaign`: `count(*) > 0` over
`"stats"."campaignParticipantStats"` filtered by campaign and user. -/
def user_is_bound_to_campaign (db : DB) (u : EtUser) (c : EtCampaign) : Bool :=
  db.bindings.any (fun b => b.campaignId = c.id && b.userId = u.id)

/-- Existence of the shard table `"data"."cmp<C>_usr<P>"`. -/
def shard_table_exists (db : DB) (campaignId userId : Nat) : Bool :=
  db.shards.any (fun s => s.campaignId = campaignId && s.userId = userId)

/-- Rows of the shard table `"data"."cmp<C>_usr<P>"`, when the table exists. -/
def shard_records (db : DB) (campaignId userId : Nat) : Option (List DataRecord) :=
  (db.shards.find? (fun s => s.campaignId = campaignId && s.userId = userId)).map
    Shard.records

/-! ## `bind_participant_to_campaign` (db_mgr.py lines 195-221) -/

/-- `create table if not exists "data"."cmp<C>_usr<P>"`. -/
def create_shard_if_absent (db : DB) (campaignId userId : Nat) : DB :=
  if shard_table_exists db campaignId userId then db
  else { db with shards := db.shards ++ [⟨campaignId, userId, []⟩] }

/-- `bind_participant_to_campaign(db_user, db_campaign)`: when the pair is
not yet bound, inserts the binding row with the current timestamp and
creates the shard table if absent, returning `true`; otherwise returns
`false` leaving the state untouched. -/
def bind_participant_to_campaign (now : Nat) (u : EtUser) (c : EtCampaign)
    (db : DB) : Bool × DB :=
  if user_is_bound_to_campaign db u c then (false, db)
  else
    (true,
      create_shard_if_absent
        { db with bindings := db.bindings ++ [⟨u.id, c.id, now⟩] } c.id u.id)

/-! ## `server.py`: `bindUserToCampaign` (lines 255-290) -/

/-- Response of the `BindUserToCampaign` RPC. -/
structure BindResponse where
  success : Bool
  isFirstTimeBinding : Bool
  campaignStartTimestamp : Nat
  deriving DecidableEq, Repr

/-- `bindUserToCampaign`: looks the user and campaign up; when both exist it
delegates to `bind_participant_to_campaign` and reports the campaign start
timestamp, else it fails without touching the state. -/
def bindUserToCampaign (now : Nat) (db : DB) (userId campaignId : Nat) :
    BindResponse × DB :=
  match get_user db userId, get_campaign db campaignId with
  | some u, some c =>
      let r := bind_participant_to_campaign now u c db
      (⟨true, r.1, c.startTimestamp⟩, r.2)
  | _, _ => (⟨false, false, 0⟩, db)

/-! ## C1: binding twice -/

theorem user_is_bound_after_bind (now : Nat) (u : EtUser) (c : EtCampaign)
    (db : DB) :
    user_is_bound_to_campaign (bind_participant_to_campaign now u c db).2 u c =
      true := by
  unfold bind_participant_to_campaign
  by_cases h : user_is_bound_to_campaign db u c
  · simp [h]
  · simp only [h, Bool.false_eq_true, if_neg, ite_false]
    unfold create_shard_if_absent
    unfold user_is_bound_to_campaign at *
    split <;> simp_all [List.any_append]

theorem bind_creates_shard (now : Nat) (u : EtUser) (c : EtCampaign) (db : DB)
    (h : user_is_bound_to_campaign db u c = false) :
    shard_table_exists (bind_participant_to_campaign now u c db).2 c.id u.id =
      true := by
  unfold bind_participant_to_campaign create_shard_if_absent
  simp only [h, Bool.false_eq_true, ite_false]
  split
  · next hex =>
      unfold shard_table_exists at *
      simpa using hex
  · unfold shard_table_exists
    simp [List.any_append]

theorem bindUserToCampaign_already_bound (now userId campaignId : Nat)
    (db : DB) (u : EtUser) (c : EtCampaign)
    (hu : get_user db userId = some u)
    (hc : get_campaign db campaignId = some c)
    (hb : user_is_bound_to_campaign db u c = true) :
    bindUserToCampaign now db userId campaignId =
      (⟨true, false, c.startTimestamp⟩, db) := by
  unfold bindUserToCampaign
  rw [hu, hc]
  simp [bind_participant_to_campaign, hb]

/-- C1: for a user and campaign that both exist and are not yet bound,
calling `bindUserToCampaign` twice returns `isFirstTimeBinding = true` then
`false`; the shard table `"data"."cmp<C>_usr<P>"` exists after the first
call, and the second call leaves the whole database state (in particular
the binding rows and the shards) unchanged. -/
theorem C1_bind_twice (now₁ now₂ userId campaignId : Nat) (db : DB)
    (u : EtUser) (c : EtCampaign)
    (hu : get_user db userId = some u)
    (hc : get_campaign db campaignId = some c)
    (hnb : user_is_bound_to_campaign db u c = false) :
    (bindUserToCampaign now₁ db userId campaignId).1.success = true ∧
    (bindUserToCampaign now₁ db userId campaignId).1.isFirstTimeBinding = true ∧
    shard_table_exists (bindUserToCampaign now₁ db userId campaignId).2
      c.id u.id = true ∧
    (bindUserToCampaign now₂ (bindUserToCampaign now₁ db userId campaignId).2
      userId campaignId).1.success = true ∧
    (bindUserToCampaign now₂ (bindUserToCampaign now₁ db userId campaignId).2
      userId campaignId).1.isFirstTimeBinding = false ∧
    (bindUserToCampaign now₂ (bindUserToCampaign now₁ db userId campaignId).2
      userId campaignId).2 =
      (bindUserToCampaign now₁ db userId campaignId).2 := by
  have hdb1 : (bindUserToCampaign now₁ db userId campaignId).2 =
      (bind_participant_to_campaign now₁ u c db).2 := by
    unfold bindUserToCampaign
    rw [hu, hc]
  have husers : (bind_participant_to_campaign now₁ u c db).2.users = db.users := by
    unfold bind_participant_to_campaign create_shard_if_absent
    simp only [hnb, Bool.false_eq_true, ite_false]
    split <;> rfl
  have hcamps : (bind_participant_to_campaign now₁ u c db).2.campaigns =
      db.campaigns := by
    unfold bind_participant_to_campaign create_shard_if_absent
    simp only [hnb, Bool.false_eq_true, ite_false]
    split <;> rfl
  have hu1 : get_user (bindUserToCampaign now₁ db userId campaignId).2 userId =
      some u := by
    rw [hdb1]; unfold get_user at *; rw [husers]; exact hu
  have hc1 : get_campaign (bindUserToCampaign now₁ db userId campaignId).2
      campaignId = some c := by
    rw [hdb1]; unfold get_campaign at *; rw [hcamps]; exact hc
  have hbound1 : user_is_bound_to_campaign
      (bindUserToCampaign now₁ db userId campaignId).2 u c = true := by
    rw [hdb1]; exact user_is_bound_after_bind now₁ u c db
  have hsecond := bindUserToCampaign_already_bound now₂ userId campaignId
    (bindUserToCampaign now₁ db userId campaignId).2 u c hu1 hc1 hbound1
  refine ⟨?_, ?_, ?_, ?_, ?_, ?_⟩
  · unfold bindUserToCampaign; rw [hu, hc]
  · unfold bindUserToCampaign; rw [hu, hc]
    simp [bind_participant_to_campaign, hnb]
  · rw [hdb1]; exact bind_creates_shard now₁ u c db hnb
  · rw [hsecond]
  · rw [hsecond]
  · rw [hsecond]

/-- Concrete instance of `C1_bind_twice`: user 66 and campaign 9,
initially unbound. -/
def exDB : DB where
  users := [⟨66, "p66@easytrack.com", "pass", "P"⟩]
  campaigns := [⟨9, 1, "camp", "", "[]", 100, 200⟩]
  dataSources := [⟨3, 1, "acc", "icon"⟩]
  bindings := []
  shards := []
  stats := []

/-- Witness for C1 at the concrete state `exDB`. -/
theorem C1_bind_twice_witness :
    (bindUserToCampaign 5 exDB 66 9).1.success = true ∧
    (bindUserToCampaign 5 exDB 66 9).1.isFirstTimeBinding = true ∧
    shard_table_exists (bindUserToCampaign 5 exDB 66 9).2 9 66 = true ∧
    (bindUserToCampaign 7 (bindUserToCampaign 5 exDB 66 9).2 66 9).1.success
      = true ∧
    (bindUserToCampaign 7 (bindUserToCampaign 5 exDB 66 9).2 66
      9).1.isFirstTimeBinding = false ∧
    (bindUserToCampaign 7 (bindUserToCampaign 5 exDB 66 9).2 66 9).2 =
      (bindUserToCampaign 5 exDB 66 9).2 :=
  C1_bind_twice 5 7 66 9 exDB ⟨66, "p66@easytrack.com", "pass", "P"⟩
    ⟨9, 1, "camp", "", "[]", 100, 200⟩ (by decide) (by decide) (by decide)

/-! ## `server.py`: `register` (lines 43-102) and `create_user` -/

/-- `settings.MIN_USERNAME_LENGTH`. -/
def MIN_USERNAME_LENGTH : Nat := 4

/-- `settings.MIN_PASSWORD_LENGTH`. -/
def MIN_PASSWORD_LENGTH : Nat := 4

/-- `get_next_id`: `max("id") + 1`, or `0` on an empty table. -/
def get_next_id (ids : List Nat) : Nat :=
  match ids.max? with
  | none => 0
  | some m => m + 1

/-- `create_user(name, email, session_key)`: inserts a user row with the next
available id. -/
def create_user (db : DB) (name email session_key : String) : DB :=
  { db with
    users := db.users ++
      [⟨get_next_id (db.users.map EtUser.id), email, session_key, name⟩] }

/-- Response of the `Register` RPC. -/
structure RegisterResponse where
  success : Bool
  message : String
  deriving DecidableEq, Repr

/-- `register`: validates the username and password lengths, refuses a taken
username (`<username>@easytrack.com` already present), otherwise creates the
user and re-reads it to confirm. -/
def register (db : DB) (username name password : String) :
    RegisterResponse × DB :=
  if username.length < MIN_USERNAME_LENGTH then
    (⟨false, "Username must be minimum 4 characters long"⟩, db)
  else if password.length < MIN_PASSWORD_LENGTH then
    (⟨false, "Password must be minimum 4 characters long"⟩, db)
  else
    match get_user_by_email db (username ++ "@easytrack.com") with
    | some _ => (⟨false, "Username already exists"⟩, db)
    | none =>
        let db' := create_user db name (username ++ "@easytrack.com") password
        match get_user_by_email db' (username ++ "@easytrack.com") with
        | some _ => (⟨true, ""⟩, db')
        | none => (⟨false, "Failed to create user (contact backend developer)"⟩, db')

/-! ## C8: registration -/

theorem get_user_by_email_create (db : DB) (name email key : String) :
    get_user_by_email (create_user db name email key) email =
      some ⟨get_next_id (db.users.map EtUser.id), email, key, name⟩ ∨
    (get_user_by_email (create_user db name email key) email =
      get_user_by_email db email ∧ get_user_by_email db email ≠ none) := by
  unfold get_user_by_email create_user
  simp only [List.find?_append]
  cases hfind : db.users.find? (fun u => u.email = email) with
  | none => left; simp [List.find?]
  | some u => right; simp [hfind]

/-- C8: `register` succeeds if and only if the username has at least
`MIN_USERNAME_LENGTH` characters, the password at least
`MIN_PASSWORD_LENGTH`, and no user with email `<username>@easytrack.com`
exists yet; on success exactly the new user row is appended, and on any
failure the user table is unchanged and the response carries a non-empty
message. -/
theorem C8_register (db : DB) (username name password : String) :
    ((register db username name password).1.success = true ↔
      (MIN_USERNAME_LENGTH ≤ username.length ∧
       MIN_PASSWORD_LENGTH ≤ password.length ∧
       get_user_by_email db (username ++ "@easytrack.com") = none)) ∧
    ((register db username name password).1.success = true →
      (register db username name password).2.users =
        db.users ++
          [⟨get_next_id (db.users.map EtUser.id),
            username ++ "@easytrack.com", password, name⟩]) ∧
    ((register db username name password).1.success = false →
      (register db username name password).2.users = db.users ∧
      (register db username name password).1.message ≠ "") := by
  unfold register
  by_cases hulen : username.length < MIN_USERNAME_LENGTH
  · simp [hulen]
    try omega
  · by_cases hplen : password.length < MIN_PASSWORD_LENGTH
    · simp [hulen, hplen]
      try omega
    · simp only [hulen, hplen, ite_false]
      cases hmail : get_user_by_email db (username ++ "@easytrack.com") with
      | some u => simp [hmail]
      | none =>
          rcases get_user_by_email_create db name
            (username ++ "@easytrack.com") password with hfound | ⟨_, hne⟩
          · simp only [hfound]
            refine ⟨?_, ?_, ?_⟩
            · simp; omega
            · intro _; rfl
            · simp
          · exact absurd hmail hne

/-- Witness for C8: registering the fresh username `"part"` in `exDB`
succeeds and appends exactly one user row. -/
theorem C8_register_witness :
    ((register exDB "part" "Part" "secret").1.success = true ↔
      (MIN_USERNAME_LENGTH ≤ ("part" : String).length ∧
       MIN_PASSWORD_LENGTH ≤ ("secret" : String).length ∧
       get_user_by_email exDB ("part" ++ "@easytrack.com") = none)) ∧
    ((register exDB "part" "Part" "secret").1.success = true →
      (register exDB "part" "Part" "secret").2.users =
        exDB.users ++
          [⟨get_next_id (exDB.users.map EtUser.id),
            "part" ++ "@easytrack.com", "secret", "Part"⟩]) ∧
    ((register exDB "part" "Part" "secret").1.success = false →
      (register exDB "part" "Part" "secret").2.users = exDB.users ∧
      (register exDB "part" "Part" "secret").1.message ≠ "") :=
  C8_register exDB "part" "Part" "secret"

/-! ## `get_next_k_data_records` (db_mgr.py lines 747-773) -/

/-- `settings.MAX_K_RECORDS`. -/
def MAX_K_RECORDS : Nat := 500

/-- Ordering of shard rows by the `"timestamp"` clustering column. -/
def tsLE (a b : DataRecord) : Prop := a.timestamp ≤ b.timestamp

instance : DecidableRel tsLE := fun a b => Nat.decLe a.timestamp b.timestamp

instance : IsTotal DataRecord tsLE := ⟨fun a b => Nat.le_total a.timestamp b.timestamp⟩

instance : IsTrans DataRecord tsLE := ⟨fun _ _ _ h₁ h₂ => Nat.le_trans h₁ h₂⟩

/-- `order by "timestamp" asc` over a result set. -/
def sort_by_timestamp (l : List DataRecord) : List DataRecord :=
  l.insertionSort tsLE

/-- `get_next_k_data_records`: rows of the shard with
`"timestamp" >= from_timestamp` and the requested `"dataSourceId"`, in
ascending timestamp order, limited to `k`. -/
def get_next_k_data_records (db : DB) (u : EtUser) (c : EtCampaign)
    (fromTs : Nat) (d : EtDataSource) (k : Nat) : List DataRecord :=
  match shard_records db c.id u.id with
  | none => []
  | some recs =>
      (sort_by_timestamp
        (recs.filter
          (fun r => fromTs ≤ r.timestamp && r.dataSourceId = d.id))).take k

/-! ## `server.py`: `retrieveKNextDataRecords` (lines 669-727) -/

/-- Request of the `RetrieveKNextDataRecords` RPC. -/
structure KNextRequest where
  userId : Nat
  sessionKey : String
  targetEmail : String
  targetCampaignId : Nat
  targetDataSourceId : Nat
  fromTimestamp : Nat
  k : Nat
  deriving DecidableEq, Repr

/-- Response of the `RetrieveKNextDataRecords` RPC: parallel
`timestamp`/`value` entries, kept here as pairs. -/
structure KNextResponse where
  success : Bool
  records : List (Nat × Bytes)
  deriving DecidableEq, Repr

/-- `retrieveKNextDataRecords`: resolves caller, target user, campaign and
data source, then evaluates the `and` chain of checks left to right:
session key, `k <= MAX_K_RECORDS`, and caller-is-creator-or-bound. When a
lookup returns no row or one of these checks fails, the chain
short-circuits into a plain failure response. When they all hold, the next
conjunct evaluates `db_target_user["id"]` (server.py line 704) —
string-indexing the Cassandra driver's named-tuple row, which raises
`TypeError` — so the RPC aborts with an error instead of answering,
modelled as `none`; the next-k query of the success branch is never
reached. -/
def retrieveKNextDataRecords (db : DB) (req : KNextRequest) :
    Option KNextResponse :=
  match get_user db req.userId, get_user_by_email db req.targetEmail,
      get_campaign db req.targetCampaignId,
      get_data_source db req.targetDataSourceId with
  | some u, some _, some c, some _ =>
      if u.sessionKey = req.sessionKey ∧ req.k ≤ MAX_K_RECORDS ∧
          (u.id = c.creatorId ∨ user_is_bound_to_campaign db u c = true) then
        none
      else some ⟨false, []⟩
  | _, _, _, _ => some ⟨false, []⟩

/-! ## C2: next-k reads -/

/-- The rows a next-k read selects from: the shard rows for the data source
at or after the lower bound. -/
def knext_candidates (db : DB) (u : EtUser) (c : EtCampaign) (fromTs : Nat)
    (d : EtDataSource) : List DataRecord :=
  ((shard_records db c.id u.id).getD []).filter
    (fun r => fromTs ≤ r.timestamp && r.dataSourceId = d.id)

theorem get_next_k_eq (db : DB) (u : EtUser) (c : EtCampaign) (fromTs : Nat)
    (d : EtDataSource) (k : Nat) :
    get_next_k_data_records db u c fromTs d k =
      (sort_by_timestamp (knext_candidates db u c fromTs d)).take k := by
  unfold get_next_k_data_records knext_candidates
  cases shard_records db c.id u.id <;> simp [sort_by_timestamp]

theorem get_next_k_props (db : DB) (u : EtUser) (c : EtCampaign)
    (fromTs : Nat) (d : EtDataSource) (k : Nat) :
    (get_next_k_data_records db u c fromTs d k).length ≤ k ∧
    (∀ r ∈ get_next_k_data_records db u c fromTs d k,
      r ∈ knext_candidates db u c fromTs d) ∧
    List.Sorted tsLE (get_next_k_data_records db u c fromTs d k) ∧
    (∀ r ∈ get_next_k_data_records db u c fromTs d k,
      ∀ x ∈ knext_candidates db u c fromTs d,
        x ∉ get_next_k_data_records db u c fromTs d k →
          r.timestamp ≤ x.timestamp) := by
  rw [get_next_k_eq]
  set L := knext_candidates db u c fromTs d with hL
  have hsorted : List.Sorted tsLE (sort_by_timestamp L) :=
    List.sorted_insertionSort tsLE L
  have hperm : (sort_by_timestamp L).Perm L := List.perm_insertionSort tsLE L
  refine ⟨?_, ?_, ?_, ?_⟩
  · exact List.length_take_le k (sort_by_timestamp L)
  · intro r hr
    exact hperm.mem_iff.mp ((List.take_sublist k _).mem hr)
  · exact hsorted.sublist (List.take_sublist k _)
  · intro r hr x hxL hxout
    have hxsort : x ∈ sort_by_timestamp L := hperm.mem_iff.mpr hxL
    have hsplit : sort_by_timestamp L =
        (sort_by_timestamp L).take k ++ (sort_by_timestamp L).drop k :=
      (List.take_append_drop k _).symm
    have hxdrop : x ∈ (sort_by_timestamp L).drop k := by
      rcases List.mem_append.mp (hsplit ▸ hxsort) with h | h
      · exact absurd h hxout
      · exact h
    have := (List.pairwise_append.mp (hsplit ▸ hsorted)).2.2
    exact this r hr x hxdrop

/-- Shard contents for the concrete scenario of the specification:
participant 66 in campaign 9 with two records for data source 3. -/
def exDB₂ : DB where
  users := [⟨66, "p66@easytrack.com", "pass", "P"⟩]
  campaigns := [⟨9, 1, "camp", "", "[]", 100, 200⟩]
  dataSources := [⟨3, 1, "acc", "icon"⟩]
  bindings := [⟨66, 9, 5⟩]
  shards := [⟨9, 66, [⟨3, 1610124788000, [1]⟩, ⟨3, 1610114788001, [2]⟩]⟩]
  stats := []

/-- The concrete next-k request of the specification scenario:
`FetchNextK(from=0, k=1)` on campaign 9, participant 66, data source 3. -/
def exReq₂ : KNextRequest where
  userId := 66
  sessionKey := "pass"
  targetEmail := "p66@easytrack.com"
  targetCampaignId := 9
  targetDataSourceId := 3
  fromTimestamp := 0
  k := 1

/-- C2: the claim states the intended next-k contract, but the handler
cannot deliver it — a code bug. At the specification's own concrete
scenario (state `exDB₂`, request `exReq₂`: participant 66 bound to
campaign 9, `FetchNextK(from=0, k=1)` on data source 3) every check up to
the crashing conjunct holds, so the handler evaluates
`db_target_user["id"]` on the named-tuple row and the RPC aborts
(`none`), even though the underlying `get_next_k_data_records` query
would return exactly the earliest record (timestamp 1610114788001); in
general every response the handler does return is a failure carrying no
records, so `retrieveKNextDataRecords` never produces the records the
claim describes. -/
theorem C2_retrieveKNext_crash :
    retrieveKNextDataRecords exDB₂ exReq₂ = none ∧
    get_next_k_data_records exDB₂ ⟨66, "p66@easytrack.com", "pass", "P"⟩
      ⟨9, 1, "camp", "", "[]", 100, 200⟩ 0 ⟨3, 1, "acc", "icon"⟩ 1 =
      [⟨3, 1610114788001, [2]⟩] ∧
    ∀ (db : DB) (req : KNextRequest),
      retrieveKNextDataRecords db req = none ∨
      retrieveKNextDataRecords db req = some ⟨false, []⟩ := by
  refine ⟨by decide, by decide, ?_⟩
  intro db req
  unfold retrieveKNextDataRecords
  cases hu : get_user db req.userId with
  | none => exact Or.inr rfl
  | some u =>
  cases htu : get_user_by_email db req.targetEmail with
  | none => exact Or.inr rfl
  | some tu =>
  cases hc : get_campaign db req.targetCampaignId with
  | none => exact Or.inr rfl
  | some c =>
  cases hd : get_data_source db req.targetDataSourceId with
  | none => exact Or.inr rfl
  | some d =>
  by_cases hcond : u.sessionKey = req.sessionKey ∧ req.k ≤ MAX_K_RECORDS ∧
      (u.id = c.creatorId ∨ user_is_bound_to_campaign db u c = true)
  · left; simp [hcond]
  · right; simp [hcond]

/-! ## `store_data_record` (db_mgr.py lines 613-635) and
`get_filtered_data_records` (lines 776-825) -/

/-- A Cassandra `insert` on the shard's primary key
`("dataSourceId", "timestamp")`: last write wins. -/
def upsert_record (recs : List DataRecord) (r : DataRecord) : List DataRecord :=
  recs.filter
    (fun x => !(x.dataSourceId = r.dataSourceId && x.timestamp = r.timestamp)) ++
    [r]

/-- `store_data_record`: inserts one row into `"data"."cmp<C>_usr<P>"`. -/
def store_data_record (u : EtUser) (c : EtCampaign) (d : EtDataSource)
    (ts : Nat) (v : Bytes) (db : DB) : DB :=
  { db with
    shards := db.shards.map (fun s =>
      if s.campaignId = c.id && s.userId = u.id then
        ⟨s.campaignId, s.userId, upsert_record s.records ⟨d.id, ts, v⟩⟩
      else s) }

/-- The timestamp window of `get_filtered_data_records`: inclusive lower
bound, exclusive upper bound, either side optional. -/
def in_range (fromTs tillTs : Option Nat) (t : Nat) : Bool :=
  match fromTs, tillTs with
  | some f, some l => f ≤ t && t < l
  | some f, none => f ≤ t
  | none, some l => t < l
  | none, none => true

/-- `get_filtered_data_records`: rows of the shard for the data source inside
the requested window, in ascending timestamp order. -/
def get_filtered_data_records (db : DB) (u : EtUser) (c : EtCampaign)
    (d : EtDataSource) (fromTs tillTs : Option Nat) : List DataRecord :=
  sort_by_timestamp
    (((shard_records db c.id u.id).getD []).filter
      (fun r => r.dataSourceId = d.id && in_range fromTs tillTs r.timestamp))

/-! ## `server.py`: `retrieveFilteredDataRecords` (lines 729-782) -/

/-- Bytes of a Lean string; models Python's `bytes(s, "utf8")` for the
ASCII-only placeholder text. -/
def string_to_bytes (s : String) : Bytes :=
  s.data.map Char.toNat

/-- The oversized-payload placeholder `bytes(f"[{len(value)}] bytes", "utf8")`. -/
def placeholder_bytes (n : Nat) : Bytes :=
  string_to_bytes ("[" ++ toString n ++ "] bytes")

/-- The per-record value transform of `retrieveFilteredDataRecords`:
`if request.simplifyIfTooLarge and len(value) > 500: value = ...`. -/
def simplify_value (flag : Bool) (v : Bytes) : Bytes :=
  if flag && decide (500 < v.length) then placeholder_bytes v.length else v

/-- Request of the `RetrieveFilteredDataRecords` RPC. -/
structure FilteredRequest where
  userId : Nat
  targetEmail : String
  targetCampaignId : Nat
  targetDataSourceId : Nat
  fromTimestamp : Option Nat
  tillTimestamp : Option Nat
  simplifyIfTooLarge : Bool
  deriving DecidableEq, Repr

/-- Response of the `RetrieveFilteredDataRecords` RPC: parallel
`dataSource`/`timestamp`/`value` entries, kept here as triples. -/
structure FilteredResponse where
  success : Bool
  records : List (Nat × Nat × Bytes)
  deriving DecidableEq, Repr

/-- `retrieveFilteredDataRecords`: resolves caller, target user, campaign
and data source, requires the target to be bound, and returns the filtered
rows with oversized values optionally replaced by the placeholder. -/
def retrieveFilteredDataRecords (db : DB) (req : FilteredRequest) :
    FilteredResponse :=
  match get_user db req.userId, get_user_by_email db req.targetEmail,
      get_campaign db req.targetCampaignId,
      get_data_source db req.targetDataSourceId with
  | some _, some tu, some c, some d =>
      if user_is_bound_to_campaign db tu c = true then
        ⟨true,
          (get_filtered_data_records db tu c d req.fromTimestamp
            req.tillTimestamp).map
            (fun r =>
              (r.dataSourceId, r.timestamp,
                simplify_value req.simplifyIfTooLarge r.value))⟩
      else ⟨false, []⟩
  | _, _, _, _ => ⟨false, []⟩

/-! ## C4: write/read round trip and truncation -/

theorem store_data_record_users (u : EtUser) (c : EtCampaign)
    (d : EtDataSource) (ts : Nat) (v : Bytes) (db : DB) :
    (store_data_record u c d ts v db).users = db.users ∧
    (store_data_record u c d ts v db).campaigns = db.campaigns ∧
    (store_data_record u c d ts v db).dataSources = db.dataSources ∧
    (store_data_record u c d ts v db).bindings = db.bindings :=
  ⟨rfl, rfl, rfl, rfl⟩

theorem find_records_map_update (shards : List Shard) (cid uid : Nat)
    (g : List DataRecord → List DataRecord) (recs : List DataRecord)
    (h : ((shards.find? (fun s => s.campaignId = cid && s.userId = uid)).map
      Shard.records) = some recs) :
    (((shards.map (fun s =>
        if s.campaignId = cid && s.userId = uid then
          ⟨s.campaignId, s.userId, g s.records⟩
        else s)).find? (fun s => s.campaignId = cid && s.userId = uid)).map
      Shard.records) = some (g recs) := by
  induction shards with
  | nil => simp at h
  | cons s ss ih =>
      by_cases hs : (decide (s.campaignId = cid) && decide (s.userId = uid)) = true
      · rw [@List.find?_cons_of_pos Shard
            (fun x => decide (x.campaignId = cid) && decide (x.userId = uid))
            s ss hs] at h
        simp at h
        rw [List.map_cons, if_pos hs]
        rw [@List.find?_cons_of_pos Shard
            (fun x => decide (x.campaignId = cid) && decide (x.userId = uid))
            ⟨s.campaignId, s.userId, g s.records⟩ _ hs]
        simp [h]
      · rw [@List.find?_cons_of_neg Shard
            (fun x => decide (x.campaignId = cid) && decide (x.userId = uid))
            s ss hs] at h
        rw [List.map_cons, if_neg hs]
        rw [@List.find?_cons_of_neg Shard
            (fun x => decide (x.campaignId = cid) && decide (x.userId = uid))
            s _ hs]
        exact ih h

theorem shard_records_store (u : EtUser) (c : EtCampaign) (d : EtDataSource)
    (ts : Nat) (v : Bytes) (db : DB) (recs : List DataRecord)
    (h : shard_records db c.id u.id = some recs) :
    shard_records (store_data_record u c d ts v db) c.id u.id =
      some (upsert_record recs ⟨d.id, ts, v⟩) := by
  unfold shard_records at h
  unfold shard_records store_data_record
  exact find_records_map_update db.shards c.id u.id
    (fun rs => upsert_record rs ⟨d.id, ts, v⟩) recs h

theorem window_implies_key (dsid ts : Nat) (a : DataRecord)
    (h : (a.dataSourceId = dsid &&
      in_range (some ts) (some (ts + 1)) a.timestamp) = true) :
    (a.dataSourceId = dsid && a.timestamp = ts) = true := by
  simp only [in_range, Bool.and_eq_true, decide_eq_true_eq] at h ⊢
  omega

theorem filter_window_upsert (recs : List DataRecord) (dsid ts : Nat)
    (v : Bytes) :
    (upsert_record recs ⟨dsid, ts, v⟩).filter
      (fun r => r.dataSourceId = dsid &&
        in_range (some ts) (some (ts + 1)) r.timestamp) = [⟨dsid, ts, v⟩] := by
  unfold upsert_record
  rw [List.filter_append]
  have h1 : (recs.filter
      (fun x => !(x.dataSourceId = dsid && x.timestamp = ts))).filter
      (fun r => r.dataSourceId = dsid &&
        in_range (some ts) (some (ts + 1)) r.timestamp) = [] := by
    apply List.filter_eq_nil_iff.mpr
    intro a ha hwin
    have hnk := List.of_mem_filter ha
    rw [window_implies_key dsid ts a (by simpa using hwin)] at hnk
    simp at hnk
  rw [h1]
  simp [in_range]

/-- C4: after writing value `v` at `(dataSource, timestamp)` into an
existing shard of a bound participant, `retrieveFilteredDataRecords` over
the window `[timestamp, timestamp+1)` returns exactly that record: with
`simplifyIfTooLarge` unset its value is exactly `v`; with the flag set its
value is `v` when `len(v) <= 500` and the placeholder
`bytes("[<len(v)>] bytes")` when `len(v) > 500`. -/
theorem C4_round_trip (db : DB) (callerId : Nat) (targetEmail : String)
    (u tu : EtUser) (c : EtCampaign) (d : EtDataSource) (ts : Nat) (v : Bytes)
    (flag : Bool) (recs : List DataRecord)
    (hu : get_user db callerId = some u)
    (htu : get_user_by_email db targetEmail = some tu)
    (hc : get_campaign db c.id = some c)
    (hd : get_data_source db d.id = some d)
    (hbound : user_is_bound_to_campaign db tu c = true)
    (hshard : shard_records db c.id tu.id = some recs) :
    (retrieveFilteredDataRecords (store_data_record tu c d ts v db)
      ⟨callerId, targetEmail, c.id, d.id, some ts, some (ts + 1),
        flag⟩).records = [(d.id, ts, simplify_value flag v)] ∧
    simplify_value false v = v ∧
    (v.length ≤ 500 → simplify_value true v = v) ∧
    (500 < v.length → simplify_value true v = placeholder_bytes v.length) := by
  refine ⟨?_, ?_, ?_, ?_⟩
  · have hpre := store_data_record_users tu c d ts v db
    have hu' : get_user (store_data_record tu c d ts v db) callerId = some u := by
      unfold get_user at *; rw [hpre.1]; exact hu
    have htu' : get_user_by_email (store_data_record tu c d ts v db)
        targetEmail = some tu := by
      unfold get_user_by_email at *; rw [hpre.1]; exact htu
    have hc' : get_campaign (store_data_record tu c d ts v db) c.id = some c := by
      unfold get_campaign at *; rw [hpre.2.1]; exact hc
    have hd' : get_data_source (store_data_record tu c d ts v db) d.id =
        some d := by
      unfold get_data_source at *; rw [hpre.2.2.1]; exact hd
    have hbound' : user_is_bound_to_campaign (store_data_record tu c d ts v db)
        tu c = true := by
      unfold user_is_bound_to_campaign at *; rw [hpre.2.2.2]; exact hbound
    unfold retrieveFilteredDataRecords
    rw [hu', htu', hc', hd']
    simp only [hbound', if_pos]
    unfold get_filtered_data_records
    rw [shard_records_store tu c d ts v db recs hshard]
    simp only [Option.getD_some]
    rw [filter_window_upsert]
    rfl
  · simp [simplify_value]
  · intro h; simp [simplify_value]; omega
  · intro h; simp [simplify_value]; omega

/-- Witness for C4: a 501-byte value stored for participant 66 in campaign 9
is read back as the placeholder when the flag is set, and verbatim when not. -/
theorem C4_round_trip_witness :
    ((retrieveFilteredDataRecords
      (store_data_record ⟨66, "p66@easytrack.com", "pass", "P"⟩
        ⟨9, 1, "camp", "", "[]", 100, 200⟩ ⟨3, 1, "acc", "icon"⟩ 42
        (List.replicate 501 7) exDB₂)
      ⟨66, "p66@easytrack.com", 9, 3, some 42, some 43, true⟩).records =
      [(3, 42, simplify_value true (List.replicate 501 7))] ∧
    simplify_value false (List.replicate 501 7) = List.replicate 501 7 ∧
    ((List.replicate 501 7 : Bytes).length ≤ 500 →
      simplify_value true (List.replicate 501 7) = List.replicate 501 7) ∧
    (500 < (List.replicate 501 7 : Bytes).length →
      simplify_value true (List.replicate 501 7) =
        placeholder_bytes (List.replicate 501 7 : Bytes).length)) ∧
    simplify_value true (List.replicate 501 7) = string_to_bytes "[501] bytes" :=
  ⟨C4_round_trip exDB₂ 66 "p66@easytrack.com"
      ⟨66, "p66@easytrack.com", "pass", "P"⟩
      ⟨66, "p66@easytrack.com", "pass", "P"⟩
      ⟨9, 1, "camp", "", "[]", 100, 200⟩ ⟨3, 1, "acc", "icon"⟩ 42
      (List.replicate 501 7) true
      [⟨3, 1610124788000, [1]⟩, ⟨3, 1610114788001, [2]⟩]
      (by decide) (by decide) (by decide) (by decide) (by decide) (by decide),
    by set_option maxRecDepth 4000 in decide⟩

/-! ## `store_data_records` (db_mgr.py lines 638-673) and
`server.py`: `submitDataRecords` (lines 634-667) -/

/-- Loop body of `store_data_records`: walks the zipped
`(timestamp, data_source_id, value)` triples keeping a cache of resolved
data sources; a triple whose data source does not resolve is skipped. -/
def store_data_records_go (u : EtUser) (c : EtCampaign) :
    List (Nat × Nat × Bytes) → List (Nat × EtDataSource) → DB → DB
  | [], _, db => db
  | (ts, dsid, v) :: rest, cache, db =>
      match cache.find? (fun e => e.1 = dsid) with
      | some e =>
          store_data_records_go u c rest cache
            (store_data_record u c e.2 ts v db)
      | none =>
          match get_data_source db dsid with
          | none => store_data_records_go u c rest cache db
          | some d =>
              store_data_records_go u c rest (cache ++ [(dsid, d)])
                (store_data_record u c d ts v db)

/-- `store_data_records`: zips the three parallel arrays and stores each
resolvable triple. -/
def store_data_records (u : EtUser) (c : EtCampaign)
    (timestamp_list data_source_id_list : List Nat) (value_list : List Bytes)
    (db : DB) : DB :=
  store_data_records_go u c
    (timestamp_list.zip (data_source_id_list.zip value_list)) [] db

/-- Request of the `SubmitDataRecords` RPC (parallel arrays). -/
structure SubmitRecordsRequest where
  userId : Nat
  campaignId : Nat
  timestamp : List Nat
  dataSource : List Nat
  value : List Bytes
  deriving DecidableEq, Repr

/-- Response of the `SubmitDataRecords` RPC: a bare success flag, with no
per-record information. -/
structure SubmitRecordsResponse where
  success : Bool
  deriving DecidableEq, Repr

/-- `submitDataRecords`: requires the user and campaign to exist, the user
to be bound and the batch to be non-empty, then stores the records. -/
def submitDataRecords (db : DB) (req : SubmitRecordsRequest) :
    SubmitRecordsResponse × DB :=
  match get_user db req.userId, get_campaign db req.campaignId with
  | some u, some c =>
      if user_is_bound_to_campaign db u c = true ∧ 0 < req.timestamp.length then
        (⟨true⟩,
          store_data_records u c req.timestamp req.dataSource req.value db)
      else (⟨false⟩, db)
  | _, _ => (⟨false⟩, db)

/-! ## C10: silent dropping of unresolvable data sources -/

/-- The shard rows a batch produces: one per triple whose data source
resolves, in input order; unresolvable triples contribute nothing. -/
def resolved_inserts (db : DB) (l : List (Nat × Nat × Bytes)) :
    List DataRecord :=
  l.filterMap (fun e =>
    (get_data_source db e.2.1).map (fun d => ⟨d.id, e.1, e.2.2⟩))

theorem get_data_source_store (u : EtUser) (c : EtCampaign) (d : EtDataSource)
    (ts : Nat) (v : Bytes) (db : DB) (x : Nat) :
    get_data_source (store_data_record u c d ts v db) x =
      get_data_source db x := rfl

theorem resolved_inserts_store (u : EtUser) (c : EtCampaign)
    (d : EtDataSource) (ts : Nat) (v : Bytes) (db : DB)
    (l : List (Nat × Nat × Bytes)) :
    resolved_inserts (store_data_record u c d ts v db) l =
      resolved_inserts db l := rfl

theorem store_data_records_go_shard (u : EtUser) (c : EtCampaign)
    (l : List (Nat × Nat × Bytes)) :
    ∀ (cache : List (Nat × EtDataSource)) (db : DB) (recs : List DataRecord),
      (∀ e ∈ cache, get_data_source db e.1 = some e.2) →
      shard_records db c.id u.id = some recs →
      shard_records (store_data_records_go u c l cache db) c.id u.id =
        some ((resolved_inserts db l).foldl upsert_record recs) := by
  induction l with
  | nil => intro cache db recs _ hshard; simpa [store_data_records_go,
      resolved_inserts] using hshard
  | cons e rest ih =>
      intro cache db recs hcache hshard
      obtain ⟨ts, dsid, v⟩ := e
      unfold store_data_records_go
      cases hfind : cache.find? (fun e => e.1 = dsid) with
      | some entry =>
          have hmem := List.mem_of_find?_eq_some hfind
          have hpred := List.find?_some hfind
          have hdsid : entry.1 = dsid := by simpa using hpred
          have hres : get_data_source db dsid = some entry.2 := by
            rw [← hdsid]; exact hcache entry hmem
          have hri : resolved_inserts db ((ts, dsid, v) :: rest) =
              ⟨entry.2.id, ts, v⟩ :: resolved_inserts db rest := by
            unfold resolved_inserts
            rw [List.filterMap_cons]
            simp [hres]
          rw [hri]
          rw [List.foldl_cons]
          have := ih cache (store_data_record u c entry.2 ts v db)
            (upsert_record recs ⟨entry.2.id, ts, v⟩)
            (fun e he => (get_data_source_store u c entry.2 ts v db e.1) ▸
              hcache e he)
            (shard_records_store u c entry.2 ts v db recs hshard)
          rw [resolved_inserts_store] at this
          exact this
      | none =>
          cases hres : get_data_source db dsid with
          | none =>
              have hri : resolved_inserts db ((ts, dsid, v) :: rest) =
                  resolved_inserts db rest := by
                unfold resolved_inserts
                rw [List.filterMap_cons]
                simp [hres]
              rw [hri]
              exact ih cache db recs hcache hshard
          | some d =>
              have hri : resolved_inserts db ((ts, dsid, v) :: rest) =
                  ⟨d.id, ts, v⟩ :: resolved_inserts db rest := by
                unfold resolved_inserts
                rw [List.filterMap_cons]
                simp [hres]
              rw [hri, List.foldl_cons]
              have hcache' : ∀ e ∈ cache ++ [(dsid, d)],
                  get_data_source (store_data_record u c d ts v db) e.1 =
                    some e.2 := by
                intro e he
                rw [get_data_source_store]
                rcases List.mem_append.mp he with h | h
                · exact hcache e h
                · simp only [List.mem_singleton] at h
                  subst h
                  exact hres
              have := ih (cache ++ [(dsid, d)])
                (store_data_record u c d ts v db)
                (upsert_record recs ⟨d.id, ts, v⟩) hcache'
                (shard_records_store u c d ts v db recs hshard)
              rw [resolved_inserts_store] at this
              exact this

/-- C10: for a batch submitted by a bound participant of an existing
campaign, `submitDataRecords` reports success, and the participant's shard
afterwards is the old shard with exactly the resolvable records inserted in
input order; triples whose `dataSourceId` does not resolve contribute
nothing (`resolved_inserts` drops them), and the response carries nothing
but the success flag. -/
theorem C10_submitDataRecords (db : DB) (req : SubmitRecordsRequest)
    (u : EtUser) (c : EtCampaign) (recs : List DataRecord)
    (hu : get_user db req.userId = some u)
    (hc : get_campaign db req.campaignId = some c)
    (hbound : user_is_bound_to_campaign db u c = true)
    (hne : 0 < req.timestamp.length)
    (hshard : shard_records db c.id u.id = some recs) :
    (submitDataRecords db req).1.success = true ∧
    shard_records (submitDataRecords db req).2 c.id u.id =
      some ((resolved_inserts db
        (req.timestamp.zip (req.dataSource.zip req.value))).foldl
          upsert_record recs) := by
  unfold submitDataRecords
  rw [hu, hc]
  simp only [hbound, hne, and_self, if_pos, true_and]
  unfold store_data_records
  exact store_data_records_go_shard u c
    (req.timestamp.zip (req.dataSource.zip req.value)) [] db recs
    (by intro e he; simp at he) hshard

/-- Witness for C10: participant 66 submits two records, one for the
existing data source 3 and one for the unknown data source 99; the call
succeeds and only the resolvable record is inserted. -/
theorem C10_submitDataRecords_witness :
    ((submitDataRecords exDB₂
        ⟨66, 9, [10, 20], [3, 99], [[1], [2]]⟩).1.success = true ∧
      shard_records (submitDataRecords exDB₂
          ⟨66, 9, [10, 20], [3, 99], [[1], [2]]⟩).2 9 66 =
        some ((resolved_inserts exDB₂
          (([10, 20] : List Nat).zip (([3, 99] : List Nat).zip
            ([[1], [2]] : List Bytes)))).foldl upsert_record
          [⟨3, 1610124788000, [1]⟩, ⟨3, 1610114788001, [2]⟩])) ∧
    resolved_inserts exDB₂
        (([10, 20] : List Nat).zip (([3, 99] : List Nat).zip
          ([[1], [2]] : List Bytes))) = [⟨3, 10, [1]⟩] :=
  ⟨C10_submitDataRecords exDB₂ ⟨66, 9, [10, 20], [3, 99], [[1], [2]]⟩
      ⟨66, "p66@easytrack.com", "pass", "P"⟩ ⟨9, 1, "camp", "", "[]", 100, 200⟩
      [⟨3, 1610124788000, [1]⟩, ⟨3, 1610114788001, [2]⟩]
      (by decide) (by decide) (by decide) (by decide) (by decide),
    by decide⟩

/-! ## `stats/dq_stats.py`: `amounts_of_data_routine` (lines 42-153)

One reconciliation step per `(campaign, participant, dataSource)` triple:
read all timestamps of the shard for that data source, then write
`amountOfSamples` and `syncTimestamp` into `"stats"."perDataSourceStats"`
(insert-if-absent followed by an update, i.e. an upsert on the primary key
`(campaignId, userId, dataSourceId)`). -/

/-- Shard rows for one data source, as the list of their timestamps. -/
def shard_ds_timestamps (recs : List DataRecord) (dsid : Nat) : List Nat :=
  (recs.filter (fun r => r.dataSourceId = dsid)).map DataRecord.timestamp

/-- `total_amount_of_samples = len(timestamps)`. -/
def amount_of_samples (recs : List DataRecord) (dsid : Nat) : Nat :=
  (shard_ds_timestamps recs dsid).length

/-- `last_sync_timestamp = 0 if empty else max(timestamps)`. -/
def last_sync_timestamp (recs : List DataRecord) (dsid : Nat) : Nat :=
  if (shard_ds_timestamps recs dsid).length = 0 then 0
  else (shard_ds_timestamps recs dsid).foldl max 0

/-- The `"stats"."perDataSourceStats"` row for one triple. -/
def stat_lookup (db : DB) (cid uid dsid : Nat) : Option StatRow :=
  db.stats.find? (fun r =>
    r.campaignId = cid && r.userId = uid && r.dataSourceId = dsid)

/-- Writing a `perDataSourceStats` row: the primary key
`(campaignId, userId, dataSourceId)` makes the insert-then-update of the
Python code an upsert. -/
def upsert_stat (stats : List StatRow) (row : StatRow) : List StatRow :=
  stats.filter (fun r =>
    !(r.campaignId = row.campaignId && r.userId = row.userId &&
      r.dataSourceId = row.dataSourceId)) ++ [row]

/-- The shard rows the reconciliation step scans (empty for a missing
table). -/
def shard_recs_of (db : DB) (cid uid : Nat) : List DataRecord :=
  (shard_records db cid uid).getD []

/-- One reconciliation step: recompute and write the stats row of a single
`(campaign, participant, dataSource)` triple. -/
def update_stats_one (db : DB) (cid uid dsid : Nat) : DB :=
  { db with
    stats := upsert_stat db.stats
      ⟨cid, uid, dsid, amount_of_samples (shard_recs_of db cid uid) dsid,
        last_sync_timestamp (shard_recs_of db cid uid) dsid⟩ }

/-- Inner loop of `_update_campaign_stats`: all data sources of one
participant (`None` entries are skipped). -/
def update_stats_user (cid uid : Nat) :
    List (Option EtDataSource) → DB → DB
  | [], db => db
  | none :: rest, db => update_stats_user cid uid rest db
  | some d :: rest, db =>
      update_stats_user cid uid rest (update_stats_one db cid uid d.id)

/-- `_update_campaign_stats`: both loops, over the campaign's participants
and data sources (`None` entries are skipped). -/
def update_campaign_stats (c : EtCampaign) (dss : List (Option EtDataSource)) :
    List (Option EtUser) → DB → DB
  | [], db => db
  | none :: rest, db => update_campaign_stats c dss rest db
  | some u :: rest, db =>
      update_campaign_stats c dss rest (update_stats_user c.id u.id dss db)

/-! ## C6: reconciliation recomputation and idempotence -/

theorem update_stats_user_shards (cid uid : Nat)
    (dss : List (Option EtDataSource)) (db : DB) :
    (update_stats_user cid uid dss db).shards = db.shards := by
  induction dss generalizing db with
  | nil => rfl
  | cons hd rest ih =>
      cases hd with
      | none => exact ih db
      | some d => exact ih (update_stats_one db cid uid d.id)

theorem update_campaign_stats_shards (c : EtCampaign)
    (dss : List (Option EtDataSource)) (ps : List (Option EtUser)) (db : DB) :
    (update_campaign_stats c dss ps db).shards = db.shards := by
  induction ps generalizing db with
  | nil => rfl
  | cons hd rest ih =>
      cases hd with
      | none => exact ih db
      | some u =>
          have h1 := ih (update_stats_user c.id u.id dss db)
          rw [update_stats_user_shards] at h1
          exact h1

theorem find_filter_disjoint {α : Type} (p q : α → Bool) (l : List α)
    (h : ∀ x, p x = true → q x = true) :
    (l.filter q).find? p = l.find? p := by
  induction l with
  | nil => rfl
  | cons a l ih =>
      by_cases hp : p a = true
      · rw [List.filter_cons_of_pos (h a hp), List.find?_cons_of_pos _ hp,
          List.find?_cons_of_pos _ hp]
      · by_cases hq : q a = true
        · rw [List.filter_cons_of_pos hq, List.find?_cons_of_neg _ hp,
            List.find?_cons_of_neg _ hp, ih]
        · rw [List.filter_cons_of_neg (by simpa using hq),
            List.find?_cons_of_neg _ hp, ih]

theorem find_filter_out {α : Type} (p q : α → Bool) (l : List α)
    (h : ∀ x, p x = true → q x = false) :
    (l.filter q).find? p = none := by
  apply List.find?_eq_none.mpr
  intro x hx hpx
  have hqx := List.of_mem_filter hx
  rw [h x hpx] at hqx
  simp at hqx

theorem stat_lookup_upsert_self (stats : List StatRow) (row : StatRow) :
    (upsert_stat stats row).find? (fun r =>
      r.campaignId = row.campaignId && r.userId = row.userId &&
      r.dataSourceId = row.dataSourceId) = some row := by
  unfold upsert_stat
  rw [List.find?_append]
  have hdisj : ∀ x : StatRow,
      (decide (x.campaignId = row.campaignId) &&
        decide (x.userId = row.userId) &&
        decide (x.dataSourceId = row.dataSourceId)) = true →
      (!(decide (x.campaignId = row.campaignId) &&
        decide (x.userId = row.userId) &&
        decide (x.dataSourceId = row.dataSourceId))) = false := by
    intro x hx
    rw [hx]
    rfl
  rw [find_filter_out
    (fun r => r.campaignId = row.campaignId && r.userId = row.userId &&
      r.dataSourceId = row.dataSourceId)
    (fun r => !(r.campaignId = row.campaignId && r.userId = row.userId &&
      r.dataSourceId = row.dataSourceId))
    stats hdisj]
  simp

theorem stat_lookup_upsert_other (stats : List StatRow) (row : StatRow)
    (cid uid dsid : Nat)
    (hne : ¬(row.campaignId = cid ∧ row.userId = uid ∧
      row.dataSourceId = dsid)) :
    (upsert_stat stats row).find? (fun r =>
      r.campaignId = cid && r.userId = uid && r.dataSourceId = dsid) =
      stats.find? (fun r =>
        r.campaignId = cid && r.userId = uid && r.dataSourceId = dsid) := by
  unfold upsert_stat
  rw [List.find?_append]
  have himp : ∀ x : StatRow,
      (decide (x.campaignId = cid) && decide (x.userId = uid) &&
        decide (x.dataSourceId = dsid)) = true →
      (!(decide (x.campaignId = row.campaignId) &&
        decide (x.userId = row.userId) &&
        decide (x.dataSourceId = row.dataSourceId))) = true := by
    intro x hx
    simp only [Bool.and_eq_true, decide_eq_true_eq] at hx
    obtain ⟨⟨hxc, hxu⟩, hxd⟩ := hx
    simp only [Bool.not_eq_true', Bool.and_eq_false_iff,
      decide_eq_false_iff_not]
    by_contra hcon
    push_neg at hcon
    obtain ⟨⟨h1, h2⟩, h3⟩ := hcon
    exact hne ⟨by rw [← h1]; exact hxc, by rw [← h2]; exact hxu,
      by rw [← h3]; exact hxd⟩
  rw [find_filter_disjoint
    (fun r => r.campaignId = cid && r.userId = uid && r.dataSourceId = dsid)
    (fun r => !(r.campaignId = row.campaignId && r.userId = row.userId &&
      r.dataSourceId = row.dataSourceId))
    stats himp]
  have hlast : ([row] : List StatRow).find? (fun r =>
      r.campaignId = cid && r.userId = uid && r.dataSourceId = dsid) =
      none := by
    apply List.find?_eq_none.mpr
    intro x hx hpx
    simp only [List.mem_singleton] at hx
    subst hx
    simp only [Bool.and_eq_true, decide_eq_true_eq] at hpx
    exact hne ⟨hpx.1.1, hpx.1.2, hpx.2⟩
  rw [hlast]
  simp

theorem shard_recs_of_update_stats_user (cid uid : Nat)
    (dss : List (Option EtDataSource)) (db : DB) (a b : Nat) :
    shard_recs_of (update_stats_user cid uid dss db) a b =
      shard_recs_of db a b := by
  unfold shard_recs_of shard_records
  rw [update_stats_user_shards]

theorem shard_recs_of_update_campaign_stats (c : EtCampaign)
    (dss : List (Option EtDataSource)) (ps : List (Option EtUser)) (db : DB)
    (a b : Nat) :
    shard_recs_of (update_campaign_stats c dss ps db) a b =
      shard_recs_of db a b := by
  unfold shard_recs_of shard_records
  rw [update_campaign_stats_shards]

theorem update_stats_user_other_user (cid uid uid' dsid : Nat)
    (dss : List (Option EtDataSource)) (hne : uid' ≠ uid) :
    ∀ db : DB, stat_lookup (update_stats_user cid uid' dss db) cid uid dsid =
      stat_lookup db cid uid dsid := by
  induction dss with
  | nil => intro db; rfl
  | cons hd rest ih =>
      intro db
      cases hd with
      | none => exact ih db
      | some d =>
          have h1 := ih (update_stats_one db cid uid' d.id)
          exact h1.trans (stat_lookup_upsert_other db.stats
            ⟨cid, uid', d.id,
              amount_of_samples (shard_recs_of db cid uid') d.id,
              last_sync_timestamp (shard_recs_of db cid uid') d.id⟩
            cid uid dsid (fun hcon => hne hcon.2.1))

theorem update_stats_user_other_dsid (cid uid dsid : Nat)
    (dss : List (Option EtDataSource))
    (hnot : ∀ d : EtDataSource, some d ∈ dss → d.id ≠ dsid) :
    ∀ db : DB, stat_lookup (update_stats_user cid uid dss db) cid uid dsid =
      stat_lookup db cid uid dsid := by
  induction dss with
  | nil => intro db; rfl
  | cons hd rest ih =>
      intro db
      cases hd with
      | none => exact ih (fun d hdm => hnot d (List.mem_cons_of_mem _ hdm)) db
      | some d =>
          have h1 := ih (fun e hem => hnot e (List.mem_cons_of_mem _ hem))
            (update_stats_one db cid uid d.id)
          exact h1.trans (stat_lookup_upsert_other db.stats
            ⟨cid, uid, d.id,
              amount_of_samples (shard_recs_of db cid uid) d.id,
              last_sync_timestamp (shard_recs_of db cid uid) d.id⟩
            cid uid dsid
            (fun hcon => hnot d (List.mem_cons_self _ _) hcon.2.2))

theorem update_stats_user_hit (cid uid dsid : Nat)
    (dss : List (Option EtDataSource)) :
    ∀ db : DB, (∃ d : EtDataSource, some d ∈ dss ∧ d.id = dsid) →
      stat_lookup (update_stats_user cid uid dss db) cid uid dsid =
        some ⟨cid, uid, dsid,
          amount_of_samples (shard_recs_of db cid uid) dsid,
          last_sync_timestamp (shard_recs_of db cid uid) dsid⟩ := by
  induction dss with
  | nil =>
      intro db hmem
      obtain ⟨d, hdm, _⟩ := hmem
      simp at hdm
  | cons hd rest ih =>
      intro db hmem
      cases hd with
      | none =>
          obtain ⟨d, hdm, hid⟩ := hmem
          rcases List.mem_cons.mp hdm with h | h
          · simp at h
          · exact ih db ⟨d, h, hid⟩
      | some d' =>
          by_cases hrest : ∃ d : EtDataSource, some d ∈ rest ∧ d.id = dsid
          · exact ih (update_stats_one db cid uid d'.id) hrest
          · obtain ⟨d, hdm, hid⟩ := hmem
            rcases List.mem_cons.mp hdm with h | h
            · have hd'id : d'.id = dsid := by
                have : d = d' := Option.some.inj h
                rw [← this]; exact hid
              subst hd'id
              have hpres := update_stats_user_other_dsid cid uid d'.id rest
                (fun e hem hne => hrest ⟨e, hem, hne⟩)
                (update_stats_one db cid uid d'.id)
              have hgoal : stat_lookup
                  (update_stats_user cid uid (some d' :: rest) db) cid uid
                  d'.id =
                  stat_lookup (update_stats_one db cid uid d'.id) cid uid
                    d'.id := hpres
              rw [hgoal]
              exact stat_lookup_upsert_self db.stats
                ⟨cid, uid, d'.id,
                  amount_of_samples (shard_recs_of db cid uid) d'.id,
                  last_sync_timestamp (shard_recs_of db cid uid) d'.id⟩
            · exact absurd ⟨d, h, hid⟩ hrest

theorem update_campaign_stats_other_user (c : EtCampaign)
    (dss : List (Option EtDataSource)) (uid dsid : Nat)
    (ps : List (Option EtUser))
    (hnot : ∀ u : EtUser, some u ∈ ps → u.id ≠ uid) :
    ∀ db : DB,
      stat_lookup (update_campaign_stats c dss ps db) c.id uid dsid =
        stat_lookup db c.id uid dsid := by
  induction ps with
  | nil => intro db; rfl
  | cons hd rest ih =>
      intro db
      cases hd with
      | none => exact ih (fun u hm => hnot u (List.mem_cons_of_mem _ hm)) db
      | some u' =>
          have h1 := ih (fun u hm => hnot u (List.mem_cons_of_mem _ hm))
            (update_stats_user c.id u'.id dss db)
          exact h1.trans (update_stats_user_other_user c.id uid u'.id dsid dss
            (hnot u' (List.mem_cons_self _ _)) db)

theorem update_campaign_stats_hit (c : EtCampaign)
    (dss : List (Option EtDataSource)) (uid dsid : Nat)
    (ps : List (Option EtUser)) :
    ∀ db : DB, (∃ u : EtUser, some u ∈ ps ∧ u.id = uid) →
      (∃ d : EtDataSource, some d ∈ dss ∧ d.id = dsid) →
      stat_lookup (update_campaign_stats c dss ps db) c.id uid dsid =
        some ⟨c.id, uid, dsid,
          amount_of_samples (shard_recs_of db c.id uid) dsid,
          last_sync_timestamp (shard_recs_of db c.id uid) dsid⟩ := by
  induction ps with
  | nil =>
      intro db hu _
      obtain ⟨u, hum, _⟩ := hu
      simp at hum
  | cons hd rest ih =>
      intro db hu hd'
      cases hd with
      | none =>
          obtain ⟨u, hum, hid⟩ := hu
          rcases List.mem_cons.mp hum with h | h
          · simp at h
          · exact ih db ⟨u, h, hid⟩ hd'
      | some u' =>
          by_cases hrest : ∃ u : EtUser, some u ∈ rest ∧ u.id = uid
          · have h1 := ih (update_stats_user c.id u'.id dss db) hrest hd'
            rw [shard_recs_of_update_stats_user] at h1
            exact h1
          · obtain ⟨u, hum, hid⟩ := hu
            rcases List.mem_cons.mp hum with h | h
            · have hu'id : u'.id = uid := by
                have : u = u' := Option.some.inj h
                rw [← this]; exact hid
              subst hu'id
              have hpres := update_campaign_stats_other_user c dss u'.id dsid
                rest (fun e hem hne => hrest ⟨e, hem, hne⟩)
                (update_stats_user c.id u'.id dss db)
              have hgoal : stat_lookup
                  (update_campaign_stats c dss (some u' :: rest) db) c.id
                  u'.id dsid =
                  stat_lookup (update_stats_user c.id u'.id dss db) c.id
                    u'.id dsid := hpres
              rw [hgoal]
              exact update_stats_user_hit c.id u'.id dsid dss db hd'
            · exact absurd ⟨u, h, hid⟩ hrest

/-- C6: after one pass of `_update_campaign_stats` over a campaign, the
`perDataSourceStats` row of any listed `(participant, dataSource)` pair
holds `amountOfSamples` equal to the number of shard records for that data
source and `syncTimestamp` equal to their maximum timestamp (`0` when there
are none); running the pass a second time with no intervening writes leaves
that row identical. -/
theorem C6_reconciliation (db : DB) (c : EtCampaign)
    (ps : List (Option EtUser)) (dss : List (Option EtDataSource))
    (u : EtUser) (d : EtDataSource)
    (hu : some u ∈ ps) (hd : some d ∈ dss) :
    stat_lookup (update_campaign_stats c dss ps db) c.id u.id d.id =
      some ⟨c.id, u.id, d.id,
        amount_of_samples (shard_recs_of db c.id u.id) d.id,
        last_sync_timestamp (shard_recs_of db c.id u.id) d.id⟩ ∧
    stat_lookup
        (update_campaign_stats c dss ps (update_campaign_stats c dss ps db))
        c.id u.id d.id =
      stat_lookup (update_campaign_stats c dss ps db) c.id u.id d.id := by
  have h1 := update_campaign_stats_hit c dss u.id d.id ps db
    ⟨u, hu, rfl⟩ ⟨d, hd, rfl⟩
  have h2 := update_campaign_stats_hit c dss u.id d.id ps
    (update_campaign_stats c dss ps db) ⟨u, hu, rfl⟩ ⟨d, hd, rfl⟩
  rw [shard_recs_of_update_campaign_stats] at h2
  exact ⟨h1, h2.trans h1.symm⟩

/-- Witness for C6: one pass over campaign 9 / participant 66 /
data source 3 of `exDB₂` writes `amountOfSamples = 2` and
`syncTimestamp = 1610124788000`, and a second pass leaves the row
unchanged. -/
theorem C6_reconciliation_witness :
    (stat_lookup
        (update_campaign_stats ⟨9, 1, "camp", "", "[]", 100, 200⟩
          [some ⟨3, 1, "acc", "icon"⟩]
          [some ⟨66, "p66@easytrack.com", "pass", "P"⟩] exDB₂) 9 66 3 =
      some ⟨9, 66, 3,
        amount_of_samples (shard_recs_of exDB₂ 9 66) 3,
        last_sync_timestamp (shard_recs_of exDB₂ 9 66) 3⟩ ∧
    stat_lookup
        (update_campaign_stats ⟨9, 1, "camp", "", "[]", 100, 200⟩
          [some ⟨3, 1, "acc", "icon"⟩]
          [some ⟨66, "p66@easytrack.com", "pass", "P"⟩]
          (update_campaign_stats ⟨9, 1, "camp", "", "[]", 100, 200⟩
            [some ⟨3, 1, "acc", "icon"⟩]
            [some ⟨66, "p66@easytrack.com", "pass", "P"⟩] exDB₂)) 9 66 3 =
      stat_lookup
        (update_campaign_stats ⟨9, 1, "camp", "", "[]", 100, 200⟩
          [some ⟨3, 1, "acc", "icon"⟩]
          [some ⟨66, "p66@easytrack.com", "pass", "P"⟩] exDB₂) 9 66 3) ∧
    amount_of_samples (shard_recs_of exDB₂ 9 66) 3 = 2 ∧
    last_sync_timestamp (shard_recs_of exDB₂ 9 66) 3 = 1610124788000 :=
  ⟨C6_reconciliation exDB₂ ⟨9, 1, "camp", "", "[]", 100, 200⟩
      [some ⟨66, "p66@easytrack.com", "pass", "P"⟩]
      [some ⟨3, 1, "acc", "icon"⟩]
      ⟨66, "p66@easytrack.com", "pass", "P"⟩ ⟨3, 1, "acc", "icon"⟩
      (by decide) (by decide),
    by decide⟩

/-! ## `et-rest-api-server/db_mgr.py`: `save_data_cassandra` (lines 64-86)

The loop adds each `(timestamp, value)` pair to the current
`BatchStatement`, adds `len(value)` to `cur_size`, and submits the batch
once `cur_size > 25 * 1024 * 1024`; after the loop the pending batch is
submitted only `if cur_size > 0`. -/

/-- The `cur_size > 25 * 1024 * 1024` threshold. -/
def BATCH_SIZE_LIMIT : Nat := 25 * 1024 * 1024

/-- Total payload bytes of a sub-batch (`cur_size` accounting: the sum of
`len(value)`). -/
def batch_payload (b : List (Nat × Bytes)) : Nat :=
  (b.map (fun e => e.2.length)).sum

/-- The loop of `save_data_cassandra`: the returned list holds the
sub-batches in the order they are submitted. -/
def save_batches : List (Nat × Bytes) → List (Nat × Bytes) → Nat →
    List (List (Nat × Bytes))
  | [], curBatch, curSize => if 0 < curSize then [curBatch] else []
  | e :: rest, curBatch, curSize =>
      if BATCH_SIZE_LIMIT < curSize + e.2.length then
        (curBatch ++ [e]) :: save_batches rest [] 0
      else save_batches rest (curBatch ++ [e]) (curSize + e.2.length)

/-- `save_data_cassandra(user_id, timestamps_arr, values_arr)`, with the
records pre-zipped: the list of submitted sub-batches. -/
def save_data_cassandra (records : List (Nat × Bytes)) :
    List (List (Nat × Bytes)) :=
  save_batches records [] 0

/-! ## C3: batch splitting -/

theorem batch_payload_concat (b : List (Nat × Bytes)) (e : Nat × Bytes) :
    batch_payload (b ++ [e]) = batch_payload b + e.2.length := by
  simp [batch_payload]

theorem batch_payload_zero (b : List (Nat × Bytes))
    (h : batch_payload b = 0) : ∀ e ∈ b, e.2.length = 0 := by
  intro e he
  unfold batch_payload at h
  have := List.sum_eq_zero_iff.mp h
  exact this e.2.length (List.mem_map.mpr ⟨e, he, rfl⟩)

theorem batch_payload_dropLast_le (b : List (Nat × Bytes)) :
    batch_payload b.dropLast ≤ batch_payload b := by
  rcases List.eq_nil_or_concat b with h | ⟨b', e, h⟩
  · subst h; simp
  · subst h
    rw [List.concat_eq_append, List.dropLast_concat, batch_payload_concat]
    omega

theorem save_batches_join (l : List (Nat × Bytes)) :
    ∀ (cur : List (Nat × Bytes)) (size : Nat), size = batch_payload cur →
      ∃ dropped : List (Nat × Bytes),
        (save_batches l cur size).flatten ++ dropped = cur ++ l ∧
        ∀ e ∈ dropped, e.2.length = 0 := by
  induction l with
  | nil =>
      intro cur size hsize
      unfold save_batches
      by_cases hpos : 0 < size
      · refine ⟨[], ?_, ?_⟩
        · simp [hpos]
        · intro e he; simp at he
      · refine ⟨cur, ?_, ?_⟩
        · simp [hpos]
        · intro e he
          exact batch_payload_zero cur (by omega) e he
  | cons e rest ih =>
      intro cur size hsize
      unfold save_batches
      by_cases hflush : BATCH_SIZE_LIMIT < size + e.2.length
      · obtain ⟨dropped, hjoin, hdrop⟩ := ih [] 0 rfl
        refine ⟨dropped, ?_, hdrop⟩
        rw [if_pos hflush]
        rw [List.flatten_cons, List.append_assoc, hjoin]
        simp
      · obtain ⟨dropped, hjoin, hdrop⟩ := ih (cur ++ [e])
          (size + e.2.length) (by rw [batch_payload_concat, hsize])
        refine ⟨dropped, ?_, hdrop⟩
        rw [if_neg hflush, hjoin]
        simp
  
theorem save_batches_size (l : List (Nat × Bytes)) :
    ∀ (cur : List (Nat × Bytes)) (size : Nat), size = batch_payload cur →
      size ≤ BATCH_SIZE_LIMIT →
      ∀ b ∈ save_batches l cur size,
        batch_payload b.dropLast ≤ BATCH_SIZE_LIMIT := by
  induction l with
  | nil =>
      intro cur size hsize hle b hb
      unfold save_batches at hb
      by_cases hpos : 0 < size
      · rw [if_pos hpos] at hb
        simp only [List.mem_singleton] at hb
        subst hb
        calc batch_payload b.dropLast ≤ batch_payload b :=
              batch_payload_dropLast_le b
          _ ≤ BATCH_SIZE_LIMIT := by omega
      · rw [if_neg hpos] at hb
        simp at hb
  | cons e rest ih =>
      intro cur size hsize hle b hb
      unfold save_batches at hb
      by_cases hflush : BATCH_SIZE_LIMIT < size + e.2.length
      · rw [if_pos hflush] at hb
        rcases List.mem_cons.mp hb with h | h
        · subst h
          rw [List.dropLast_concat]
          omega
        · exact ih [] 0 rfl (by unfold BATCH_SIZE_LIMIT; omega) b h
      · rw [if_neg hflush] at hb
        exact ih (cur ++ [e]) (size + e.2.length)
          (by rw [batch_payload_concat, hsize]) (by omega) b hb

/-- C3 fails on the code in two ways, at concrete inputs: a batch holding a
single record with an empty value is submitted in no sub-batch at all (the
final `if cur_size > 0` guard drops it), and a batch holding a single
record of `25 MiB + 1` bytes produces a sub-batch whose payload exceeds
25 MiB (the flush happens only after the threshold is crossed). -/
theorem save_single_oversized (e : Nat × Bytes)
    (h : BATCH_SIZE_LIMIT < e.2.length) :
    save_data_cassandra [e] = [[e]] := by
  unfold save_data_cassandra save_batches
  rw [if_pos (show BATCH_SIZE_LIMIT < 0 + e.2.length by omega)]
  rfl

theorem replicate_len_over : BATCH_SIZE_LIMIT <
    ((0, (List.replicate (25 * 1024 * 1024 + 1) 0 : Bytes)) :
      Nat × Bytes).2.length := by
  rw [show ((0, (List.replicate (25 * 1024 * 1024 + 1) 0 : Bytes)) :
      Nat × Bytes).2 = List.replicate (25 * 1024 * 1024 + 1) (0 : Nat) from
    rfl]
  rw [List.length_replicate]
  unfold BATCH_SIZE_LIMIT
  omega

theorem C3_counterexample :
    save_data_cassandra [(0, ([] : Bytes))] = [] ∧
    (∃ b ∈ save_data_cassandra
        [(0, (List.replicate (25 * 1024 * 1024 + 1) 0 : Bytes))],
      BATCH_SIZE_LIMIT < batch_payload b) := by
  constructor
  · rfl
  · rw [save_single_oversized _ replicate_len_over]
    refine ⟨[(0, List.replicate (25 * 1024 * 1024 + 1) 0)],
      List.mem_singleton_self _, ?_⟩
    have h : batch_payload
        [(0, (List.replicate (25 * 1024 * 1024 + 1) 0 : Bytes))] =
        (List.replicate (25 * 1024 * 1024 + 1) (0 : Nat)).length := by
      unfold batch_payload
      rw [List.map_singleton, List.sum_singleton]
    rw [h, List.length_replicate]
    unfold BATCH_SIZE_LIMIT
    omega

/-- C3 (amended): `save_data_cassandra` splits the input into consecutive
sub-batches submitted in input order: the concatenation of the submitted
sub-batches followed by a dropped suffix of zero-length-value records
equals the input (so every record with a non-empty value is submitted in
exactly one sub-batch, while a trailing run of empty-value records whose
accumulated size is zero is never submitted); each sub-batch satisfies the
size bound only up to its last record: the payload of a sub-batch without
its final record is at most 25 MiB, so a sub-batch may exceed 25 MiB by the
size of its last record. -/
theorem C3_batch_split (records : List (Nat × Bytes)) :
    (∃ dropped : List (Nat × Bytes),
      (save_data_cassandra records).flatten ++ dropped = records ∧
      ∀ e ∈ dropped, e.2.length = 0) ∧
    ∀ b ∈ save_data_cassandra records,
      batch_payload b.dropLast ≤ BATCH_SIZE_LIMIT := by
  constructor
  · simpa using save_batches_join records [] 0 rfl
  · exact save_batches_size records [] 0 rfl
      (by unfold BATCH_SIZE_LIMIT; omega)

/-- Witness for C3 (amended) at a concrete two-record batch whose second
value is empty: the accumulated payload is positive, so both records ride
in a single submitted sub-batch and the dropped suffix is empty. -/
theorem C3_batch_split_witness :
    ((∃ dropped : List (Nat × Bytes),
        (save_data_cassandra [(1, [7]), (2, [])]).flatten ++ dropped =
          [(1, [7]), (2, [])] ∧
        ∀ e ∈ dropped, e.2.length = 0) ∧
      ∀ b ∈ save_data_cassandra [(1, [7]), (2, [])],
        batch_payload b.dropLast ≤ BATCH_SIZE_LIMIT) ∧
    save_data_cassandra [(1, [7]), (2, [])] = [[(1, [7]), (2, [])]] :=
  ⟨C3_batch_split [(1, [7]), (2, [])], by decide⟩

/-! ## `et-dashboard/tools/pg_db_mgr.py`: `_convert_csv_hex_to_text` /
`_convert_csv_with_user_id` (lines 821-860)

The export writes each binary payload as a Postgres bytea hex field
(`\x` followed by two lowercase hex digits per byte); the conversion step
computes `str(bytes.fromhex(cells[-1][2:]), encoding="utf8")`: it strips
the two-character prefix, decodes the hex pairs back to the original
bytes, and then converts those bytes to text as strict UTF-8. -/

/-- Lowercase hex digit for `n < 16`. -/
def hexDigitChar (n : Nat) : Char :=
  if n < 10 then Char.ofNat (48 + n) else Char.ofNat (87 + n)

/-- Two lowercase hex digits per byte. -/
def bytes_to_hex_chars (v : Bytes) : List Char :=
  v.foldr (fun b acc => hexDigitChar (b / 16) :: hexDigitChar (b % 16) :: acc)
    []

/-- The bytea hex field the CSV export produces: `\x` + hex digits. -/
def bytea_hex_field (v : Bytes) : String :=
  String.mk ('\\' :: 'x' :: bytes_to_hex_chars v)

/-- Value of one hex digit (`bytes.fromhex` accepts both cases). -/
def hexVal (c : Char) : Option Nat :=
  if '0' ≤ c ∧ c ≤ '9' then some (c.toNat - 48)
  else if 'a' ≤ c ∧ c ≤ 'f' then some (c.toNat - 87)
  else if 'A' ≤ c ∧ c ≤ 'F' then some (c.toNat - 55)
  else none

/-- `bytes.fromhex` over an even-length digit string. -/
def hex_pairs_to_bytes : List Char → Option Bytes
  | [] => some []
  | c1 :: c2 :: rest =>
      match hexVal c1, hexVal c2, hex_pairs_to_bytes rest with
      | some h, some l, some bs => some ((16 * h + l) :: bs)
      | _, _, _ => none
  | [_] => none

/-- `bytes.fromhex(cells[-1][2:])`: drop the two prefix characters and
decode the hex pairs. -/
def bytes_fromhex_field (s : String) : Option Bytes :=
  hex_pairs_to_bytes (s.data.drop 2)

/-- A UTF-8 continuation byte (`0x80`-`0xBF`). -/
def utf8_cont (b : Nat) : Bool := 128 ≤ b && b ≤ 191

/-- One UTF-8 sequence of length 2: leading byte `0xC2`-`0xDF` followed by
a continuation byte. -/
def utf8_two (b : Nat) : List Nat → Option (Nat × List Nat)
  | b2 :: rest2 =>
      if utf8_cont b2 then some ((b - 192) * 64 + (b2 - 128), rest2) else none
  | [] => none

/-- One UTF-8 sequence of length 3: leading byte `0xE0`-`0xEF`, with the
restricted second-byte ranges of `0xE0` and `0xED`. -/
def utf8_three (b : Nat) : List Nat → Option (Nat × List Nat)
  | b2 :: b3 :: rest3 =>
      if (if b = 224 then 160 ≤ b2 && b2 ≤ 191
          else if b = 237 then 128 ≤ b2 && b2 ≤ 159
          else utf8_cont b2) && utf8_cont b3 then
        some ((b - 224) * 4096 + (b2 - 128) * 64 + (b3 - 128), rest3)
      else none
  | _ => none

/-- One UTF-8 sequence of length 4: leading byte `0xF0`-`0xF4`, with the
restricted second-byte ranges of `0xF0` and `0xF4`. -/
def utf8_four (b : Nat) : List Nat → Option (Nat × List Nat)
  | b2 :: b3 :: b4 :: rest4 =>
      if (if b = 240 then 144 ≤ b2 && b2 ≤ 191
          else if b = 244 then 128 ≤ b2 && b2 ≤ 143
          else utf8_cont b2) && utf8_cont b3 && utf8_cont b4 then
        some ((b - 240) * 262144 + (b2 - 128) * 4096 + (b3 - 128) * 64 +
          (b4 - 128), rest4)
      else none
  | _ => none

/-- Decode one UTF-8 sequence starting with byte `b`: the code point and
the remaining bytes, or `none` on invalid input. -/
def utf8_step (b : Nat) (rest : List Nat) : Option (Nat × List Nat) :=
  if b < 128 then some (b, rest)
  else if 194 ≤ b && b ≤ 223 then utf8_two b rest
  else if 224 ≤ b && b ≤ 239 then utf8_three b rest
  else if 240 ≤ b && b ≤ 244 then utf8_four b rest
  else none

/-- Fuelled decoding loop; each step consumes at least one byte, so fuel
equal to the list length (as `utf8_decode` supplies) never runs out. -/
def utf8_go : Nat → List Nat → Option (List Nat)
  | _, [] => some []
  | 0, _ :: _ => none
  | fuel + 1, b :: rest =>
      match utf8_step b rest with
      | none => none
      | some (cp, rest2) => (utf8_go fuel rest2).map (fun cs => cp :: cs)

/-- Strict UTF-8 decoding of a byte list into code points, as Python's
`str(bytes, encoding="utf8")` performs it (`none` models the
`UnicodeDecodeError` raised on invalid input). -/
def utf8_decode (l : List Nat) : Option (List Nat) :=
  utf8_go l.length l

/-- The full per-cell conversion of `_convert_csv_hex_to_text` /
`_convert_csv_with_user_id`:
`str(bytes.fromhex(cells[-1][2:]), encoding="utf8")`, as the decoded code
points (`none` when either stage raises). -/
def convert_cell (s : String) : Option (List Nat) :=
  (bytes_fromhex_field s).bind utf8_decode

/-! ## C5: export encode/decode round trip -/

theorem hexVal_hexDigitChar (n : Nat) (h : n < 16) :
    hexVal (hexDigitChar n) = some n := by
  interval_cases n <;> rfl

theorem hex_pairs_round_trip (v : Bytes) (hv : ∀ b ∈ v, b < 256) :
    hex_pairs_to_bytes (bytes_to_hex_chars v) = some v := by
  induction v with
  | nil => rfl
  | cons b rest ih =>
      have hb : b < 256 := hv b (List.mem_cons_self _ _)
      have h1 : b / 16 < 16 := by omega
      have h2 : b % 16 < 16 := by omega
      have hchars : bytes_to_hex_chars (b :: rest) =
          hexDigitChar (b / 16) :: hexDigitChar (b % 16) ::
            bytes_to_hex_chars rest := rfl
      rw [hchars]
      unfold hex_pairs_to_bytes
      rw [hexVal_hexDigitChar _ h1, hexVal_hexDigitChar _ h2,
        ih (fun x hx => hv x (List.mem_cons_of_mem _ hx))]
      show some ((16 * (b / 16) + b % 16) :: rest) = some (b :: rest)
      have hbyte : 16 * (b / 16) + b % 16 = b := by omega
      rw [hbyte]

theorem utf8_go_ascii (v : Bytes) :
    ∀ fuel : Nat, (∀ b ∈ v, b < 128) → v.length ≤ fuel →
      utf8_go fuel v = some v := by
  induction v with
  | nil => intro fuel _ _; cases fuel <;> rfl
  | cons b rest ih =>
      intro fuel h hlen
      cases fuel with
      | zero => simp at hlen
      | succ f =>
          have hb : b < 128 := h b (List.mem_cons_self _ _)
          have hstep : utf8_step b rest = some (b, rest) := by
            unfold utf8_step; rw [if_pos hb]
          simp only [utf8_go]
          rw [hstep]
          show Option.map (fun cs => b :: cs) (utf8_go f rest) =
            some (b :: rest)
          rw [ih f (fun x hx => h x (List.mem_cons_of_mem _ hx))
            (by simpa using hlen)]
          rfl

theorem utf8_decode_ascii (v : Bytes) (h : ∀ b ∈ v, b < 128) :
    utf8_decode v = some v :=
  utf8_go_ascii v v.length h (Nat.le_refl _)

/-- C5 fails on the code: for the single byte `0xFF` (a legal payload
byte), the hex encoding round-trips through `bytes.fromhex`, but the
subsequent `str(..., encoding="utf8")` conversion fails (raises
`UnicodeDecodeError`), so the export/decode pipeline does not return the
original bytes for all byte values. -/
theorem C5_counterexample :
    convert_cell (bytea_hex_field [255]) = none ∧
    bytes_fromhex_field (bytea_hex_field [255]) = some [255] := by
  constructor <;> rfl

/-- C5 (amended): the textual hex encoding of the export followed by the
`bytes.fromhex` decoding of the conversion step yields exactly the
original bytes for every byte payload; the further conversion of those
bytes to UTF-8 text is partial — it succeeds (and preserves every byte as
a code point) when the payload is plain ASCII, and fails on byte payloads
that are not valid UTF-8, such as `0xFF`. -/
theorem C5_hex_round_trip (v : Bytes) (hv : ∀ b ∈ v, b < 256) :
    bytes_fromhex_field (bytea_hex_field v) = some v ∧
    ((∀ b ∈ v, b < 128) → convert_cell (bytea_hex_field v) = some v) := by
  have h1 : bytes_fromhex_field (bytea_hex_field v) = some v := by
    unfold bytes_fromhex_field bytea_hex_field
    have hdata : (String.mk ('\\' :: 'x' :: bytes_to_hex_chars v)).data =
        '\\' :: 'x' :: bytes_to_hex_chars v := rfl
    rw [hdata]
    have hdrop : ('\\' :: 'x' :: bytes_to_hex_chars v).drop 2 =
        bytes_to_hex_chars v := rfl
    rw [hdrop]
    exact hex_pairs_round_trip v hv
  refine ⟨h1, fun hascii => ?_⟩
  unfold convert_cell
  rw [h1]
  simpa using utf8_decode_ascii v hascii

/-- Witness for C5 (amended): the ASCII payload `"Hi"` (`[72, 105]`)
round-trips through the hex field `"\x4869"` and through the UTF-8
conversion. -/
theorem C5_hex_round_trip_witness :
    (bytes_fromhex_field (bytea_hex_field [72, 105]) = some [72, 105] ∧
      ((∀ b ∈ ([72, 105] : Bytes), b < 128) →
        convert_cell (bytea_hex_field [72, 105]) = some [72, 105])) ∧
    bytea_hex_field [72, 105] = "\\x4869" :=
  ⟨C5_hex_round_trip [72, 105] (by decide), by decide⟩

/-! ## `get_campaign_participants`: gRPC server (tools/db_mgr.py lines
224-246) and dashboard (et-dashboard/tools/db_mgr.py lines 205-236)

Both iterate the binding rows of the campaign and resolve each
participant. The gRPC server version merely skips rows whose user no
longer resolves; the dashboard version additionally deletes such rows
from `"stats"."campaignParticipantStats"`. -/

/-- Loop of the gRPC server version: collect resolvable users, skip the
rest; it performs no writes. -/
def participants_loop_grpc (db : DB) : List BindingRow → List EtUser
  | [] => []
  | row :: rest =>
      match get_user db row.userId with
      | some u => u :: participants_loop_grpc db rest
      | none => participants_loop_grpc db rest

/-- gRPC server `get_campaign_participants`: the resolvable participants
and the (unchanged) database state. -/
def get_campaign_participants_grpc (db : DB) (c : EtCampaign) :
    List EtUser × DB :=
  (participants_loop_grpc db
    (db.bindings.filter (fun b => b.campaignId = c.id)), db)

/-- `delete from "stats"."campaignParticipantStats"
where "userId" = %s and "campaignId" = %s`. -/
def delete_binding (db : DB) (uid cid : Nat) : DB :=
  { db with
    bindings := db.bindings.filter
      (fun b => !(b.userId = uid && b.campaignId = cid)) }

/-- Loop of the dashboard version over the snapshot of binding rows:
collect resolvable users and delete the rows of unresolvable ones (user
lookups read the user table, which the deletions never touch, so they are
performed against the original state). -/
def participants_loop_dash (db : DB) (cid : Nat) :
    List BindingRow → DB → List EtUser × DB
  | [], cur => ([], cur)
  | row :: rest, cur =>
      match get_user db row.userId with
      | some u =>
          let r := participants_loop_dash db cid rest cur
          (u :: r.1, r.2)
      | none =>
          participants_loop_dash db cid rest
            (delete_binding cur row.userId cid)

/-- Dashboard `get_campaign_participants`: the resolvable participants and
the state after orphan cleanup. -/
def get_campaign_participants_dash (db : DB) (c : EtCampaign) :
    List EtUser × DB :=
  participants_loop_dash db c.id
    (db.bindings.filter (fun b => b.campaignId = c.id)) db

/-! ## C7: participant listing and orphan pruning -/

theorem loop_dash_cons_some (db : DB) (cid : Nat) (row : BindingRow)
    (rest : List BindingRow) (cur : DB) (u : EtUser)
    (h : get_user db row.userId = some u) :
    participants_loop_dash db cid (row :: rest) cur =
      (u :: (participants_loop_dash db cid rest cur).1,
        (participants_loop_dash db cid rest cur).2) := by
  rw [participants_loop_dash, h]

theorem loop_dash_cons_none (db : DB) (cid : Nat) (row : BindingRow)
    (rest : List BindingRow) (cur : DB)
    (h : get_user db row.userId = none) :
    participants_loop_dash db cid (row :: rest) cur =
      participants_loop_dash db cid rest
        (delete_binding cur row.userId cid) := by
  rw [participants_loop_dash, h]

theorem loop_grpc_filterMap (db : DB) (rows : List BindingRow) :
    participants_loop_grpc db rows =
      rows.filterMap (fun b => get_user db b.userId) := by
  induction rows with
  | nil => rfl
  | cons row rest ih =>
      rw [participants_loop_grpc, List.filterMap_cons]
      cases h : get_user db row.userId <;> simp [h, ih]

theorem loop_dash_list (db : DB) (cid : Nat) (rows : List BindingRow) :
    ∀ cur : DB, (participants_loop_dash db cid rows cur).1 =
      rows.filterMap (fun b => get_user db b.userId) := by
  induction rows with
  | nil => intro cur; rfl
  | cons row rest ih =>
      intro cur
      rw [List.filterMap_cons]
      cases h : get_user db row.userId with
      | some u => rw [loop_dash_cons_some db cid row rest cur u h]; simp [ih]
      | none =>
          rw [loop_dash_cons_none db cid row rest cur h]
          simp [ih (delete_binding cur row.userId cid)]

theorem loop_dash_subset (db : DB) (cid : Nat) (rows : List BindingRow) :
    ∀ (cur : DB) (b : BindingRow),
      b ∈ (participants_loop_dash db cid rows cur).2.bindings →
      b ∈ cur.bindings := by
  induction rows with
  | nil => intro cur b hb; exact hb
  | cons row rest ih =>
      intro cur b hb
      cases h : get_user db row.userId with
      | some u =>
          rw [loop_dash_cons_some db cid row rest cur u h] at hb
          exact ih cur b hb
      | none =>
          rw [loop_dash_cons_none db cid row rest cur h] at hb
          have := ih (delete_binding cur row.userId cid) b hb
          exact List.mem_of_mem_filter this

theorem loop_dash_keeps (db : DB) (cid : Nat) (rows : List BindingRow) :
    ∀ (cur : DB) (b : BindingRow), b ∈ cur.bindings →
      ((get_user db b.userId).isSome = true ∨ b.campaignId ≠ cid) →
      b ∈ (participants_loop_dash db cid rows cur).2.bindings := by
  induction rows with
  | nil => intro cur b hb _; exact hb
  | cons row rest ih =>
      intro cur b hb hkeep
      cases h : get_user db row.userId with
      | some u =>
          rw [loop_dash_cons_some db cid row rest cur u h]
          exact ih cur b hb hkeep
      | none =>
          rw [loop_dash_cons_none db cid row rest cur h]
          apply ih (delete_binding cur row.userId cid) b _ hkeep
          unfold delete_binding
          apply List.mem_filter.mpr
          refine ⟨hb, ?_⟩
          simp only [Bool.not_eq_true', Bool.and_eq_false_iff,
            decide_eq_false_iff_not]
          rcases hkeep with hres | hcid
          · by_contra hcon
            push_neg at hcon
            rw [hcon.1] at hres
            rw [h] at hres
            simp at hres
          · right; exact hcid

theorem loop_dash_no_orphans (db : DB) (cid : Nat)
    (rows : List BindingRow) :
    ∀ cur : DB,
      (∀ b ∈ cur.bindings, b.campaignId = cid →
        (get_user db b.userId).isSome = true ∨
        ∃ row ∈ rows, row.userId = b.userId ∧
          get_user db row.userId = none) →
      ∀ b ∈ (participants_loop_dash db cid rows cur).2.bindings,
        b.campaignId = cid → (get_user db b.userId).isSome = true := by
  induction rows with
  | nil =>
      intro cur H b hb hcid
      rcases H b hb hcid with h | ⟨row, hrow, _⟩
      · exact h
      · simp at hrow
  | cons row rest ih =>
      intro cur H b hb hcid
      cases hres : get_user db row.userId with
      | some u =>
          rw [loop_dash_cons_some db cid row rest cur u hres] at hb
          refine ih cur ?_ b hb hcid
          intro x hx hxcid
          rcases H x hx hxcid with h | ⟨row', hrow', heq, hnone⟩
          · exact Or.inl h
          · rcases List.mem_cons.mp hrow' with hr | hr
            · subst hr
              rw [hres] at hnone
              simp at hnone
            · exact Or.inr ⟨row', hr, heq, hnone⟩
      | none =>
          rw [loop_dash_cons_none db cid row rest cur hres] at hb
          refine ih (delete_binding cur row.userId cid) ?_ b hb hcid
          intro x hx hxcid
          have hxcur : x ∈ cur.bindings := List.mem_of_mem_filter hx
          rcases H x hxcur hxcid with h | ⟨row', hrow', heq, hnone⟩
          · exact Or.inl h
          · rcases List.mem_cons.mp hrow' with hr | hr
            · subst hr
              exfalso
              have hxfilter := (List.mem_filter.mp hx).2
              simp only [Bool.not_eq_true', Bool.and_eq_false_iff,
                decide_eq_false_iff_not] at hxfilter
              rcases hxfilter with h1 | h2
              · exact h1 heq.symm
              · exact h2 hxcid
            · exact Or.inr ⟨row', hr, heq, hnone⟩

/-- C7 fails on the cited gRPC-server implementation: in a state whose
only binding row `(userId 1, campaign 9)` has no resolving user, its
`get_campaign_participants` returns the empty participant list but
performs no write, so the orphan binding row is still present afterwards —
it is not deleted as the claim requires. -/
theorem C7_counterexample :
    (get_campaign_participants_grpc
      ⟨[], [⟨9, 1, "camp", "", "[]", 100, 200⟩], [], [⟨1, 9, 5⟩], [], []⟩
      ⟨9, 1, "camp", "", "[]", 100, 200⟩).1 = [] ∧
    (get_campaign_participants_grpc
      ⟨[], [⟨9, 1, "camp", "", "[]", 100, 200⟩], [], [⟨1, 9, 5⟩], [], []⟩
      ⟨9, 1, "camp", "", "[]", 100, 200⟩).2.bindings = [⟨1, 9, 5⟩] ∧
    get_user
      ⟨[], [⟨9, 1, "camp", "", "[]", 100, 200⟩], [], [⟨1, 9, 5⟩], [], []⟩
      1 = none := by
  refine ⟨rfl, rfl, rfl⟩

/-- C7 (amended): both `get_campaign_participants` implementations return
exactly the bound participants of the campaign whose user record still
resolves (in binding order); the dashboard implementation additionally
deletes every binding row of the campaign whose participant no longer
resolves — afterwards no orphan row remains for that campaign, rows of
resolvable participants and rows of other campaigns are kept, and no row
is added — while the gRPC-server implementation performs no write at all,
leaving orphan binding rows in place. -/
theorem C7_participants (db : DB) (c : EtCampaign) :
    (get_campaign_participants_grpc db c).1 =
      (db.bindings.filter (fun b => b.campaignId = c.id)).filterMap
        (fun b => get_user db b.userId) ∧
    (get_campaign_participants_grpc db c).2 = db ∧
    (get_campaign_participants_dash db c).1 =
      (db.bindings.filter (fun b => b.campaignId = c.id)).filterMap
        (fun b => get_user db b.userId) ∧
    (∀ b ∈ (get_campaign_participants_dash db c).2.bindings,
      b.campaignId = c.id → (get_user db b.userId).isSome = true) ∧
    (∀ b ∈ db.bindings,
      ((get_user db b.userId).isSome = true ∨ b.campaignId ≠ c.id) →
      b ∈ (get_campaign_participants_dash db c).2.bindings) ∧
    (∀ b ∈ (get_campaign_participants_dash db c).2.bindings,
      b ∈ db.bindings) := by
  refine ⟨?_, rfl, ?_, ?_, ?_, ?_⟩
  · unfold get_campaign_participants_grpc
    exact loop_grpc_filterMap db _
  · unfold get_campaign_participants_dash
    exact loop_dash_list db c.id _ db
  · unfold get_campaign_participants_dash
    apply loop_dash_no_orphans db c.id _ db
    intro b hb hcid
    cases hres : get_user db b.userId with
    | some u => left; rfl
    | none =>
        right
        refine ⟨b, ?_, rfl, hres⟩
        apply List.mem_filter.mpr
        exact ⟨hb, by simpa using hcid⟩
  · unfold get_campaign_participants_dash
    intro b hb hkeep
    exact loop_dash_keeps db c.id _ db b hb hkeep
  · unfold get_campaign_participants_dash
    intro b hb
    exact loop_dash_subset db c.id _ db b hb

/-- Witness for C7 (amended): in a state with one resolvable participant
(66) and one orphan row (user 1) in campaign 9, the dashboard call returns
only participant 66 and removes exactly the orphan row. -/
def exDB₇ : DB where
  users := [⟨66, "p66@easytrack.com", "pass", "P"⟩]
  campaigns := [⟨9, 1, "camp", "", "[]", 100, 200⟩]
  dataSources := []
  bindings := [⟨66, 9, 5⟩, ⟨1, 9, 6⟩]
  shards := []
  stats := []

/-- Witness for C7 (amended) at `exDB₇`, plus the concrete pruned state. -/
theorem C7_participants_witness :
    ((get_campaign_participants_grpc exDB₇
        ⟨9, 1, "camp", "", "[]", 100, 200⟩).1 =
      (exDB₇.bindings.filter (fun b => b.campaignId = 9)).filterMap
        (fun b => get_user exDB₇ b.userId) ∧
    (get_campaign_participants_grpc exDB₇
        ⟨9, 1, "camp", "", "[]", 100, 200⟩).2 = exDB₇ ∧
    (get_campaign_participants_dash exDB₇
        ⟨9, 1, "camp", "", "[]", 100, 200⟩).1 =
      (exDB₇.bindings.filter (fun b => b.campaignId = 9)).filterMap
        (fun b => get_user exDB₇ b.userId) ∧
    (∀ b ∈ (get_campaign_participants_dash exDB₇
        ⟨9, 1, "camp", "", "[]", 100, 200⟩).2.bindings,
      b.campaignId = 9 → (get_user exDB₇ b.userId).isSome = true) ∧
    (∀ b ∈ exDB₇.bindings,
      ((get_user exDB₇ b.userId).isSome = true ∨ b.campaignId ≠ 9) →
      b ∈ (get_campaign_participants_dash exDB₇
        ⟨9, 1, "camp", "", "[]", 100, 200⟩).2.bindings) ∧
    (∀ b ∈ (get_campaign_participants_dash exDB₇
        ⟨9, 1, "camp", "", "[]", 100, 200⟩).2.bindings,
      b ∈ exDB₇.bindings)) ∧
    (get_campaign_participants_dash exDB₇
      ⟨9, 1, "camp", "", "[]", 100, 200⟩).2.bindings = [⟨66, 9, 5⟩] :=
  ⟨C7_participants exDB₇ ⟨9, 1, "camp", "", "[]", 100, 200⟩, by decide⟩

/-! ## `stats/dq_stats.py`: `backup_routine` (lines 156-234)

On each tick the loop checks, per campaign, the thread stored in the
`campaign_backup_threads` dictionary: if that previously launched thread
is still alive the campaign is skipped for this tick (nothing is queued);
otherwise a fresh backup thread is launched and stored in the dictionary.
The loop is the only launcher; a running thread eventually finishes on its
own. This is modelled as a transition system over the set of launched
threads. -/

/-- One launched backup thread: its campaign and whether it is still
executing (`is_alive`). -/
structure BackupTask where
  campaignId : Nat
  alive : Bool

/-- State of the archival service: every backup thread launched so far, in
launch order, and per campaign the index of the thread the
`campaign_backup_threads` dictionary holds (the last one launched for that
campaign), `none` while no thread was ever launched for it. -/
structure ArchState where
  tasks : List BackupTask
  tracked : Nat → Option Nat

/-- The transitions of the archival loop: a tick launches a backup thread
for a campaign only when the tracked thread for that campaign is absent or
no longer alive (`skip-if-running` guard), storing the new thread in the
dictionary; independently, any running thread may finish. -/
inductive ArchStep : ArchState → ArchState → Prop
  | launch (s : ArchState) (cid : Nat)
      (hguard : ∀ i, s.tracked cid = some i →
        ∃ h : i < s.tasks.length, (s.tasks.get ⟨i, h⟩).alive = false) :
      ArchStep s
        ⟨s.tasks ++ [⟨cid, true⟩],
          fun c => if c = cid then some s.tasks.length else s.tracked c⟩
  | finish (s : ArchState) (i : Nat) (h : i < s.tasks.length) :
      ArchStep s
        ⟨s.tasks.set i ⟨(s.tasks.get ⟨i, h⟩).campaignId, false⟩, s.tracked⟩

/-- States the archival loop can reach from startup (empty dictionary, no
threads). -/
inductive ArchReachable : ArchState → Prop
  | init : ArchReachable ⟨[], fun _ => none⟩
  | step (s s' : ArchState) (hs : ArchReachable s) (hstep : ArchStep s s') :
      ArchReachable s'

/-- Number of backup threads of one campaign that are currently executing:
the in-flight tasks of that campaign. -/
def alive_count (s : ArchState) (cid : Nat) : Nat :=
  (s.tasks.filter (fun t => t.campaignId = cid && t.alive)).length

/-! ## C9: at most one backup task per campaign in flight -/

/-- Inductive invariant: every thread still alive is the one its
campaign's dictionary entry tracks. -/
def tracked_inv (s : ArchState) : Prop :=
  ∀ (i : Nat) (h : i < s.tasks.length),
    (s.tasks.get ⟨i, h⟩).alive = true →
    s.tracked ((s.tasks.get ⟨i, h⟩).campaignId) = some i

theorem reachable_tracked_inv (s : ArchState) (hs : ArchReachable s) :
    tracked_inv s := by
  induction hs with
  | init => intro i h _; simp at h
  | step s s' hs hstep ih =>
      cases hstep with
      | launch cid hguard =>
          intro i h halive
          by_cases hi : i < s.tasks.length
          · have hget : (s.tasks ++ [(⟨cid, true⟩ : BackupTask)]).get ⟨i, h⟩ =
                s.tasks.get ⟨i, hi⟩ := List.getElem_append_left hi
            rw [hget] at halive ⊢
            have htr := ih i hi halive
            have hne : (s.tasks.get ⟨i, hi⟩).campaignId ≠ cid := by
              intro heq
              obtain ⟨hlt, hdead⟩ := hguard i (heq ▸ htr)
              have : s.tasks.get ⟨i, hlt⟩ = s.tasks.get ⟨i, hi⟩ := rfl
              rw [this] at hdead
              rw [halive] at hdead
              exact Bool.true_eq_false.mp hdead
            simp only [hne, if_neg]
            exact htr
          · have hlen : i = s.tasks.length := by
              have := h
              simp only [List.length_append, List.length_singleton] at this
              omega
            have hget : (s.tasks ++ [(⟨cid, true⟩ : BackupTask)]).get ⟨i, h⟩ =
                ⟨cid, true⟩ := List.getElem_concat_length _ _ _ hlen _
            rw [hget]
            simp [hlen]
      | finish j hj =>
          intro i h halive
          have hlen : i < s.tasks.length := by
            have := h
            simp only [List.length_set] at this
            exact this
          have hget : (s.tasks.set j
              ⟨(s.tasks.get ⟨j, hj⟩).campaignId, false⟩).get ⟨i, h⟩ =
              if j = i then ⟨(s.tasks.get ⟨j, hj⟩).campaignId, false⟩
              else s.tasks.get ⟨i, hlen⟩ := List.getElem_set h
          by_cases hji : j = i
          · rw [hget, if_pos hji] at halive
            exact absurd halive (by simp)
          · rw [hget, if_neg hji] at halive ⊢
            exact ih i hlen halive

theorem filter_length_le_one {α : Type} (l : List α) (p : α → Bool)
    (h : ∀ (i j : Nat) (hi : i < l.length) (hj : j < l.length),
      p (l.get ⟨i, hi⟩) = true → p (l.get ⟨j, hj⟩) = true → i = j) :
    (l.filter p).length ≤ 1 := by
  induction l with
  | nil => simp
  | cons a l ih =>
      by_cases hp : p a = true
      · rw [List.filter_cons_of_pos hp]
        have hnil : l.filter p = [] := by
          apply List.filter_eq_nil_iff.mpr
          intro x hx hpx
          obtain ⟨n, hn, hxn⟩ := List.mem_iff_getElem.mp hx
          have h0 : p ((a :: l).get ⟨0, by simp⟩) = true := hp
          have hn1 : p ((a :: l).get ⟨n + 1, by simpa using hn⟩) = true := by
            simpa [hxn] using hpx
          have := h 0 (n + 1) (by simp) (by simpa using hn) h0 hn1
          simp at this
        rw [hnil]
        rfl
      · rw [List.filter_cons_of_neg (by simpa using hp)]
        apply ih
        intro i j hi hj hpi hpj
        have := h (i + 1) (j + 1) (by simpa using hi) (by simpa using hj)
          (by simpa using hpi) (by simpa using hpj)
        omega

/-- C9: in every reachable state of the archival loop, at most one backup
task per campaign is in flight; a tick launches a new backup thread for a
campaign only when the previously launched one has finished, and otherwise
skips the campaign without queuing anything, so running threads never
overlap per campaign. -/
theorem C9_backup_no_overlap (s : ArchState) (hs : ArchReachable s)
    (cid : Nat) : alive_count s cid ≤ 1 := by
  have hinv := reachable_tracked_inv s hs
  unfold alive_count
  apply filter_length_le_one
  intro i j hi hj hpi hpj
  simp only [Bool.and_eq_true, decide_eq_true_eq] at hpi hpj
  have h1 := hinv i hi hpi.2
  have h2 := hinv j hj hpj.2
  rw [hpi.1] at h1
  rw [hpj.1] at h2
  rw [h1] at h2
  exact Option.some.inj h2

/-- Witness for C9: the state after one launch for campaign 7 from the
initial state is reachable and has exactly one task in flight. -/
theorem C9_backup_no_overlap_witness :
    alive_count ⟨[⟨7, true⟩], fun c => if c = 7 then some 0 else none⟩ 7 ≤ 1 :=
  C9_backup_no_overlap
    ⟨[⟨7, true⟩], fun c => if c = 7 then some 0 else none⟩
    (ArchReachable.step ⟨[], fun _ => none⟩ _ ArchReachable.init
      (ArchStep.launch ⟨[], fun _ => none⟩ 7
        (fun i hi => by simp at hi)))
    7
